import Mathlib

/-!
# SpECTRE: initial data of the shape and size maps, and functions of time

A shallow embedding of

* `domain::creators::time_dependent_options::ShapeMapOptions` and
  `initial_shape_and_size_funcs`, as exercised by
  `tests/Unit/Domain/Creators/Test_ShapeMapOptions.cpp`;
* the abstract class `domain::FunctionsOfTime::FunctionOfTime`
  (`src/Domain/FunctionsOfTime/FunctionOfTime.hpp`).

`ShapeMapOptions.hpp/.cpp`, the spherical-harmonic library and the H5 reader are
not part of the sources at hand; the definitions that stand for them say so in
their doc comments.
-/

namespace Spectre

/-! ## Scalars -/

/-- Operations on the C++ `double` that the derivation performs: the literals
`0.0` and `1.0`, unary minus, `*`, `-` and the comparison `<=`.  No law is
assumed of them, so every statement proved for an arbitrary `DoubleOps`
holds for IEEE-754 arithmetic with rounding just as for exact arithmetic. -/
class DoubleOps (D : Type) extends Zero D, One D, Neg D, Mul D, Sub D where
  /-- The comparison `a <= b`. -/
  le : D → D → Bool

/-- Exact rational arithmetic; it agrees with `double` arithmetic on inputs
where no operation rounds (products with `1.0` and `-1.0`, for instance). -/
instance : DoubleOps ℚ where
  le a b := decide (a ≤ b)

/-- A `DataVector`: a sequence of doubles. -/
abbrev DataVector (D : Type) := List D

/-! ## Options (names as in `Test_ShapeMapOptions.cpp`) -/

/-- The enumeration `domain::ObjectLabel`. -/
inductive ObjectLabel where
  | A
  | B
  | None
  deriving DecidableEq, Repr

/-- Modelled from the spec: `get_output(ObjectLabel)` (Domain/Structure/ObjectLabel.hpp
is not among the sources), the label's string form, empty for the "no label"
case. -/
def get_output : ObjectLabel → String
  | .A => "A"
  | .B => "B"
  | .None => ""

/-- The option group `KerrSchildFromBoyerLindquist` (`Mass`, `Spin`). -/
structure KerrSchildFromBoyerLindquist (D : Type) where
  mass : D
  spin : D × D × D

/-- The option group `YlmsFromFile` (`H5Filename`, `SubfileNames`, `MatchTime`,
`MatchTimeEpsilon`, `SetL1CoefsToZero`); `match_time_epsilon = none` is `Auto`. -/
structure YlmsFromFile (D : Type) where
  h5_filename : String
  subfile_names : List String
  match_time : D
  match_time_epsilon : Option D
  set_l1_coefs_to_zero : Bool

/-- The alternatives held by `ShapeMapOptions::initial_values` when it has a
value (`std::variant<KerrSchildFromBoyerLindquist, YlmsFromFile>`). -/
inductive InitialValues (D : Type) where
  | kerr_schild (mass_and_spin : KerrSchildFromBoyerLindquist D)
  | ylms (files : YlmsFromFile D)

/-- The class template `ShapeMapOptions<IncludeTransitionEndsAtCube, Object>` with
its data members `l_max` (`LMax`), `initial_values` (`InitialValues`; `none` is
`Spherical`), `initial_size_values` (`SizeInitialValues`; `none` is `Auto`) and
`transition_ends_at_cube`. -/
structure ShapeMapOptions (D : Type) (IncludeTransitionEndsAtCube : Bool)
    (Object : ObjectLabel) where
  l_max : Nat
  initial_values : Option (InitialValues D)
  initial_size_values : Option (D × D × D)
  transition_ends_at_cube : Bool

/-- Modelled from the spec: `ShapeMapOptions::name()` (ShapeMapOptions.hpp is not
among the sources): the fixed string `"ShapeMap"` followed by the object label's
string form. -/
def ShapeMapOptions.name {D : Type} {c : Bool} {Object : ObjectLabel}
    (_ : ShapeMapOptions D c Object) : String :=
  "ShapeMap" ++ get_output Object

/-! ## External collaborators of the derivation -/

/-- One time-tagged surface stored in a subfile: the time, the expansion order
used at write time and the flattened coefficient buffer (the test's
`Strahlkorper::coefficients()` at `file_l_max`). -/
structure YlmSample (D : Type) where
  time : D
  l_max : Nat
  coefficients : DataVector D

/-- Modelled from the spec: what the derivation consumes from code that is not
among the sources.
* `spectral_size l_max m_max`: `ylm::Spherepack::spectral_size`, the length of a
  flattened coefficient vector;
* `coefficient_index l_max l m`: `ylm::SpherepackIterator{l_max, l_max}.set(l, m)()`,
  the position of mode `(l, m)` in such a vector;
* `sqrt_half_pi`: the value of `sqrt(0.5 * M_PI)`;
* `kerr_schild_coefficients inner_radius mass spin l_max`: the projection of the
  analytic Kerr-Schild horizon onto the spherical-harmonic basis;
* `auto_match_time_epsilon times`: the epsilon used when `MatchTimeEpsilon` is
  `Auto`, derived from the times stored in the subfile;
* `read_subfile h5_filename subfile_name`: the samples stored in a subfile. -/
structure External (D : Type) where
  spectral_size : Nat → Nat → Nat
  coefficient_index : Nat → Nat → Int → Nat
  sqrt_half_pi : D
  kerr_schild_coefficients : D → D → D × D × D → Nat → DataVector D
  auto_match_time_epsilon : List D → D
  read_subfile : String → String → List (YlmSample D)

/-- The failures of the derivation (spec, section 7). -/
inductive DerivationError where
  | TimeMatchError
  | InsufficientResolutionError
  | MalformedOptions
  deriving DecidableEq, Repr

/-- The modes `(l, m)` with `l <= l_max` and `-l <= m <= l`, in the order of the
test's double loop. -/
def modes (l_max : Nat) : List (Nat × Int) :=
  (List.range (l_max + 1)).flatMap fun (l : Nat) =>
    (List.range (2 * l + 1)).map fun (j : Nat) => (l, (j : Int) - (l : Int))

/-- Modelled from the spec: the time test of the archive lookup, `|t - match_time| <= epsilon`. -/
def within_epsilon {D : Type} [DoubleOps D] (t match_time epsilon : D) : Bool :=
  let d := t - match_time
  DoubleOps.le (if DoubleOps.le 0 d then d else -d) epsilon

/-- Modelled from the spec: reading one surface at `match_time` from a subfile
(IO/H5 and the Ylm reader are not among the sources).  Exactly one stored sample
must lie within the effective epsilon of `match_time`; zero or several is a
`TimeMatchError`. -/
def read_surface_ylm_single_time {D : Type} [DoubleOps D] (E : External D)
    (files : YlmsFromFile D) (subfile_name : String) :
    Except DerivationError (YlmSample D) :=
  let samples := E.read_subfile files.h5_filename subfile_name
  let epsilon :=
    files.match_time_epsilon.getD (E.auto_match_time_epsilon (samples.map (·.time)))
  match samples.filter (fun s => within_epsilon s.time files.match_time epsilon) with
  | [s] => .ok s
  | _ => .error .TimeMatchError

/-- Modelled from the spec: restriction from `file_l_max` to `l_max` as a pure
subset projection: position `k` of the result holds the stored coefficient of the
mode `(l, m)`, `l <= l_max`, that lives at `k`; positions of the buffer that hold
no mode are `0`. -/
def restrict {D : Type} [Zero D] (E : External D) (file_l_max l_max : Nat)
    (coefficients : DataVector D) : DataVector D :=
  (List.range (E.spectral_size l_max l_max)).map fun k =>
    match (modes l_max).find? (fun lm => E.coefficient_index l_max lm.1 lm.2 == k) with
    | some lm => coefficients.getD (E.coefficient_index file_l_max lm.1 lm.2) 0
    | none => 0

/-- Modelled from the spec: forcing the `l = 0` and `l = 1` coefficients to zero. -/
def zero_low_order_modes {D : Type} [Zero D] (E : External D) (l_max : Nat)
    (v : DataVector D) : DataVector D :=
  ((modes l_max).filter (fun lm => lm.1 < 2)).foldl
    (fun acc lm => acc.set (E.coefficient_index l_max lm.1 lm.2) 0) v

/-- Modelled from the spec: the shape coefficients made of one archived surface:
restricted to `l_max`, every coefficient multiplied by `-1.0`, and then, under
`SetL1CoefsToZero`, the modes `l < 2` set to zero. -/
def restricted_negated_coefficients {D : Type} [DoubleOps D] (E : External D)
    (l_max : Nat) (set_l1_coefs_to_zero : Bool) (s : YlmSample D) : DataVector D :=
  let negated := (restrict E s.l_max l_max s.coefficients).map fun c => (-1) * c
  if set_l1_coefs_to_zero then zero_low_order_modes E l_max negated else negated

/-- Modelled from the spec: a surface stored at a lower order than requested is
an `InsufficientResolutionError`; otherwise its coefficients are restricted and
negated. -/
def shape_coefficients_from_sample {D : Type} [DoubleOps D] (E : External D)
    (l_max : Nat) (set_l1_coefs_to_zero : Bool) (s : YlmSample D) :
    Except DerivationError (DataVector D) :=
  if s.l_max < l_max then .error .InsufficientResolutionError
  else .ok (restricted_negated_coefficients E l_max set_l1_coefs_to_zero s)

/-- Modelled from the spec: the size value of one archived surface,
`-1.0 * coefficients()[0] * sqrt(0.5 * M_PI)` in the test's words: the stored
`l = 0` coefficient, negated, times `sqrt(pi / 2)`. -/
def size_value_from_sample {D : Type} [DoubleOps D] (E : External D)
    (s : YlmSample D) : D :=
  (-1) * s.coefficients.getD (E.coefficient_index s.l_max 0 0) 0 * E.sqrt_half_pi

/-- Modelled from the spec: the surfaces a `YlmsFromFile` setting selects from its
archive, one per named subfile: the value subfile, then optionally the
time-derivative subfile.  Any other number of names is not a well-formed
setting. -/
def read_surfaces {D : Type} [DoubleOps D] (E : External D) (files : YlmsFromFile D) :
    Except DerivationError (List (YlmSample D)) :=
  match files.subfile_names with
  | [value] =>
    match read_surface_ylm_single_time E files value with
    | .ok s => .ok [s]
    | .error e => .error e
  | [value, dt] =>
    match read_surface_ylm_single_time E files value with
    | .ok s =>
      match read_surface_ylm_single_time E files dt with
      | .ok s_dt => .ok [s, s_dt]
      | .error e => .error e
    | .error e => .error e
  | _ => .error .MalformedOptions

/-- Modelled from the spec: the archived surfaces behind an initial-value setting;
none for the analytic and the spherical setting. -/
def archived_samples {D : Type} [DoubleOps D] (E : External D) :
    Option (InitialValues D) → Except DerivationError (List (YlmSample D))
  | some (.ylms files) => read_surfaces E files
  | _ => .ok []

/-- Modelled from the spec: `horizon_shape_coefficients(expansion_order)` of
section 4.2, per variant of the initial-value setting: zeros for the spherical
setting, the analytic projection for `KerrSchildFromBoyerLindquist`, the
restricted and negated value surface for `YlmsFromFile`. -/
def horizon_shape_coefficients {D : Type} [DoubleOps D] (E : External D)
    (inner_radius : D) (initial_values : Option (InitialValues D)) (l_max : Nat) :
    Except DerivationError (DataVector D) :=
  match initial_values with
  | none => .ok (List.replicate (E.spectral_size l_max l_max) 0)
  | some (.kerr_schild ks) =>
    .ok (E.kerr_schild_coefficients inner_radius ks.mass ks.spin l_max)
  | some (.ylms files) =>
    match read_surfaces E files with
    | .ok (s :: _) => shape_coefficients_from_sample E l_max files.set_l1_coefs_to_zero s
    | .ok [] => .error .MalformedOptions
    | .error e => .error e

/-- Modelled from the spec: the first-derivative shape slot.  The test compares
slot `i` of an archived setting with the surface written to subfile `i`, so the
surface of the time-derivative subfile, when one is named, is processed like the
value surface; every other setting leaves the slot zero-initialized. -/
def time_derivative_shape_coefficients {D : Type} [DoubleOps D] (E : External D)
    (initial_values : Option (InitialValues D)) (l_max : Nat) :
    Except DerivationError (DataVector D) :=
  match archived_samples E initial_values, initial_values with
  | .ok [_, s_dt], some (.ylms files) =>
    shape_coefficients_from_sample E l_max files.set_l1_coefs_to_zero s_dt
  | .ok _, _ => .ok (List.replicate (E.spectral_size l_max l_max) 0)
  | .error e, _ => .error e

/-- Modelled from the spec: the four size values under `SizeInitialValues: Auto`:
slot `i` is the size value of the surface read from subfile `i`, and `0.0` where
there is no such surface (in particular for the analytic and the spherical
setting). -/
def auto_size_values {D : Type} [DoubleOps D] (E : External D)
    (initial_values : Option (InitialValues D)) : Except DerivationError (List D) :=
  match archived_samples E initial_values with
  | .ok samples =>
    .ok ((samples.map (size_value_from_sample E) ++ List.replicate 4 0).take 4)
  | .error e => .error e

/-- Modelled from the spec: `initial_shape_and_size_funcs(shape_options, inner_radius)`
(ShapeMapOptions.cpp is not among the sources), following section 4.4 and, where
`Test_ShapeMapOptions.cpp` fixes the outcome, the test: the shape result has one
vector per strahlkorper the test compares it with (three), and explicit
`SizeInitialValues` override the derived size values in slots 0 to 2 while slot
3 is `0.0`.  Each size slot is a one-component `DataVector`. -/
def initial_shape_and_size_funcs {D : Type} [DoubleOps D] (E : External D)
    {c : Bool} {Object : ObjectLabel} (shape_options : ShapeMapOptions D c Object)
    (inner_radius : D) :
    Except DerivationError (List (DataVector D) × List (DataVector D)) := do
  let l_max := shape_options.l_max
  let shape_zeros : DataVector D := List.replicate (E.spectral_size l_max l_max) 0
  let shape_value ←
    horizon_shape_coefficients E inner_radius shape_options.initial_values l_max
  let shape_dt ← time_derivative_shape_coefficients E shape_options.initial_values l_max
  let auto ← auto_size_values E shape_options.initial_values
  let size_funcs : List (DataVector D) :=
    match shape_options.initial_size_values with
    | some (v0, v1, v2) => [[v0], [v1], [v2], [0]]
    | none => auto.map fun v => [v]
  pure ([shape_value, shape_dt, shape_zeros], size_funcs)

/-- Modelled from the spec: what the derivation needs of the buffer layout at order
`l_max`: every mode `(l, m)`, `l <= l_max`, `|m| <= l`, has a position inside the
buffer, and no two modes share a position. -/
def External.layout_ok {D : Type} (E : External D) (l_max : Nat) : Prop :=
  (∀ lm ∈ modes l_max, E.coefficient_index l_max lm.1 lm.2 < E.spectral_size l_max l_max) ∧
  ((modes l_max).map fun lm => E.coefficient_index l_max lm.1 lm.2).Nodup

instance {D : Type} (E : External D) (l_max : Nat) : Decidable (E.layout_ok l_max) := by
  unfold External.layout_ok
  infer_instance

/-! ## FunctionOfTime (`src/Domain/FunctionsOfTime/FunctionOfTime.hpp`) -/

/-- How a call of a C++ function ends, as seen by its caller: it returns a value,
an exception propagates to the caller, or the program is terminated and control
never comes back. -/
inductive CallResult (V : Type) where
  | returned (value : V)
  | threw (what : String)
  | terminated
  deriving DecidableEq, Repr

/-- The effect of the `noexcept` specifier on a function body: an exception that
would leave the body ends in `std::terminate` instead of reaching the caller. -/
def noexcept {V : Type} : CallResult V → CallResult V
  | .threw _ => .terminated
  | r => r

/-- The type `std::array<T, N>`. -/
abbrev StdArray (T : Type) (N : Nat) := { a : List T // a.length = N }

/-- A concrete class derived from the abstract `FunctionOfTime`.  `S` is all the
state that a member function of an object can read or write: its data members,
`mutable` ones included, and whatever global state it reaches.  Each field is
the body that overrides one of the pure virtual member functions: from the state
before the call and the argument to how the call ends and the state after it.
The `const` qualifier keeps a body from assigning to the ordinary data members;
it does not keep it from changing `mutable` members or globals, so nothing is
assumed of the state after a call. -/
structure FunctionOfTime (D S : Type) where
  get_clone_body : S → S × S
  time_bounds_body : S → CallResult (StdArray D 2) × S
  func_body : S → D → CallResult (StdArray (DataVector D) 1) × S
  func_and_deriv_body : S → D → CallResult (StdArray (DataVector D) 2) × S
  func_and_2_derivs_body : S → D → CallResult (StdArray (DataVector D) 3) × S

/-- The call `f.time_bounds()`: `std::array<double, 2> time_bounds() const noexcept`;
what the caller gets and the state after the call. -/
def FunctionOfTime.time_bounds {D S : Type} (F : FunctionOfTime D S) (f : S) :
    CallResult (StdArray D 2) × S :=
  (noexcept (F.time_bounds_body f).1, (F.time_bounds_body f).2)

/-- The call `f.func(t)`: `std::array<DataVector, 1> func(double t) const noexcept`;
what the caller gets and the state after the call. -/
def FunctionOfTime.func {D S : Type} (F : FunctionOfTime D S) (f : S) (t : D) :
    CallResult (StdArray (DataVector D) 1) × S :=
  (noexcept (F.func_body f t).1, (F.func_body f t).2)

/-- The call `f.func_and_deriv(t)`:
`std::array<DataVector, 2> func_and_deriv(double t) const noexcept`; what the
caller gets and the state after the call. -/
def FunctionOfTime.func_and_deriv {D S : Type} (F : FunctionOfTime D S) (f : S) (t : D) :
    CallResult (StdArray (DataVector D) 2) × S :=
  (noexcept (F.func_and_deriv_body f t).1, (F.func_and_deriv_body f t).2)

/-- The call `f.func_and_2_derivs(t)`:
`std::array<DataVector, 3> func_and_2_derivs(double t) const noexcept`; what the
caller gets and the state after the call. -/
def FunctionOfTime.func_and_2_derivs {D S : Type} (F : FunctionOfTime D S) (f : S)
    (t : D) : CallResult (StdArray (DataVector D) 3) × S :=
  (noexcept (F.func_and_2_derivs_body f t).1, (F.func_and_2_derivs_body f t).2)

/-- Whether `t` lies in `[t_min, t_max]` for the bounds `time_bounds()` returned. -/
def in_time_bounds {D : Type} [DoubleOps D] (bounds : StdArray D 2) (t : D) : Bool :=
  match bounds.1 with
  | [t_min, t_max] => DoubleOps.le t_min t && DoubleOps.le t t_max
  | _ => false

/-- A derived class for evaluation: the scalar function `t` on `[0, 1]`, whose
bodies throw `OutOfDomainError` for a time outside of the bounds and change no
state. -/
def example_function_of_time : FunctionOfTime ℚ Unit where
  get_clone_body f := (f, f)
  time_bounds_body f := (.returned ⟨[0, 1], rfl⟩, f)
  func_body f t :=
    (if in_time_bounds (⟨[0, 1], rfl⟩ : StdArray ℚ 2) t then .returned ⟨[[t]], rfl⟩
      else .threw "OutOfDomainError", f)
  func_and_deriv_body f t :=
    (if in_time_bounds (⟨[0, 1], rfl⟩ : StdArray ℚ 2) t then .returned ⟨[[t], [1]], rfl⟩
      else .threw "OutOfDomainError", f)
  func_and_2_derivs_body f t :=
    (if in_time_bounds (⟨[0, 1], rfl⟩ : StdArray ℚ 2) t then
        .returned ⟨[[t], [1], [0]], rfl⟩
      else .threw "OutOfDomainError", f)

/-- The coefficients of the value surface of the example archive, `k + 1` at
position `k` of a buffer of order 3. -/
def example_value_coefficients : DataVector ℚ :=
  [1, 2, 3, 4, 5, 6, 7, 8, 9, 10, 11, 12, 13, 14, 15, 16, 17, 18, 19, 20, 21, 22,
   23, 24, 25, 26, 27, 28, 29, 30, 31, 32]

/-- The coefficients of the time-derivative surface of the example archive,
`2 k + 1` at position `k`. -/
def example_dt_coefficients : DataVector ℚ :=
  [1, 3, 5, 7, 9, 11, 13, 15, 17, 19, 21, 23, 25, 27, 29, 31, 33, 35, 37, 39, 41,
   43, 45, 47, 49, 51, 53, 55, 57, 59, 61, 63]

/-- A buffer layout in the style of SPHEREPACK: `spectral_size l_max m_max` is
`2 (l_max + 1) (m_max + 1)`, the mode `(l, m)` with `m >= 0` sits at
`m + l (l_max + 1)` and the mode `(l, -m)` in the second half of the buffer.
The analytic projection is a stand-in of the right length, the automatic epsilon
is `1e-12`, and the archive `TotalEclipseOfTheHeart.h5` holds one surface of order
3 at time `1.5` in each of the subfiles `Ylm_coefs` and `dt_Ylm_coefs`, with
coefficient `k + 1` resp. `2 k + 1` at position `k`. -/
def example_external : External ℚ where
  spectral_size l_max m_max := 2 * (l_max + 1) * (m_max + 1)
  coefficient_index l_max l m :=
    if 0 ≤ m then m.toNat + l * (l_max + 1)
    else (l_max + 1) * (l_max + 1) + m.natAbs + l * (l_max + 1)
  sqrt_half_pi := 5644425081792261 / 4503599627370496
  kerr_schild_coefficients _ _ _ l_max := List.replicate (2 * (l_max + 1) * (l_max + 1)) 0
  auto_match_time_epsilon _ := 1 / 1000000000000
  read_subfile h5_filename subfile_name :=
    if h5_filename = "TotalEclipseOfTheHeart.h5" then
      if subfile_name = "Ylm_coefs" then
        [⟨3 / 2, 3, example_value_coefficients⟩]
      else if subfile_name = "dt_Ylm_coefs" then
        [⟨3 / 2, 3, example_dt_coefficients⟩]
      else []
    else []

/-- The `YlmsFromFile` setting of the test (with a match time that is a `double`). -/
def example_files : YlmsFromFile ℚ :=
  { h5_filename := "TotalEclipseOfTheHeart.h5"
    subfile_names := ["Ylm_coefs", "dt_Ylm_coefs"]
    match_time := 3 / 2
    match_time_epsilon := none
    set_l1_coefs_to_zero := true }

/-- Options `LMax: 2` over `example_files`, with the given `SizeInitialValues`. -/
def example_options (size : Option (ℚ × ℚ × ℚ)) : ShapeMapOptions ℚ false .None :=
  { l_max := 2
    initial_values := some (.ylms example_files)
    initial_size_values := size
    transition_ends_at_cube := false }

/-- The two surfaces that `example_files` selects. -/
def example_samples : List (YlmSample ℚ) :=
  [⟨3 / 2, 3, example_value_coefficients⟩, ⟨3 / 2, 3, example_dt_coefficients⟩]

/-- Options `LMax: 8` with the analytic setting `Mass: 1.75`, `Spin: [0.5, 0.125, 0.25]`
and `SizeInitialValues: Auto`. -/
def example_analytic_options : ShapeMapOptions ℚ true .B :=
  { l_max := 8
    initial_values := some (.kerr_schild ⟨7 / 4, (1 / 2, 1 / 8, 1 / 4)⟩)
    initial_size_values := none
    transition_ends_at_cube := true }

/-- Modelled from the spec: a concrete function of time (no class derived from
`FunctionOfTime` is among the sources).  Following the spec, an implementation
has a validity interval `[t_min, t_max]`, can be cloned, and evaluates "at order
k": `derivative f t k` is the `k`-th time derivative at `t` (the value for
`k = 0`), a numeric vector with `components f` entries whatever `k` is. -/
structure Implementation (D S : Type) where
  clone : S → S
  t_min : S → D
  t_max : S → D
  components : S → Nat
  derivative : S → D → Nat → DataVector D
  length_derivative : ∀ (f : S) (t : D) (k : Nat), (derivative f t k).length = components f

/-- Modelled from the spec: the member functions of a concrete function of time.
`time_bounds` gives `[t_min, t_max]`; `func`, `func_and_deriv` and
`func_and_2_derivs` fail with `OutOfDomainError` for a time outside of the
validity interval and otherwise return the value followed by the derivatives in
increasing order.  They have no side effects: the state after a call is the
state before it. -/
def Implementation.function_of_time {D S : Type} [DoubleOps D] (I : Implementation D S) :
    FunctionOfTime D S where
  get_clone_body f := (I.clone f, f)
  time_bounds_body f := (.returned ⟨[I.t_min f, I.t_max f], rfl⟩, f)
  func_body f t :=
    (if in_time_bounds (⟨[I.t_min f, I.t_max f], rfl⟩ : StdArray D 2) t then
        .returned ⟨[I.derivative f t 0], rfl⟩
      else .threw "OutOfDomainError", f)
  func_and_deriv_body f t :=
    (if in_time_bounds (⟨[I.t_min f, I.t_max f], rfl⟩ : StdArray D 2) t then
        .returned ⟨[I.derivative f t 0, I.derivative f t 1], rfl⟩
      else .threw "OutOfDomainError", f)
  func_and_2_derivs_body f t :=
    (if in_time_bounds (⟨[I.t_min f, I.t_max f], rfl⟩ : StdArray D 2) t then
        .returned ⟨[I.derivative f t 0, I.derivative f t 1, I.derivative f t 2], rfl⟩
      else .threw "OutOfDomainError", f)

/-- An implementation for evaluation: the two-component function `(t * t, t)` on
`[0, 1]`, with derivatives `(2 t, 1)`, `(2, 0)` and `(0, 0)` from order 3 on. -/
def example_implementation : Implementation ℚ Unit where
  clone f := f
  t_min _ := 0
  t_max _ := 1
  components _ := 2
  derivative _ t k :=
    match k with
    | 0 => [t * t, t]
    | 1 => [2 * t, 1]
    | 2 => [2, 0]
    | _ => [0, 0]
  length_derivative _ _ k := by
    match k with
    | 0 => rfl
    | 1 => rfl
    | 2 => rfl
    | _ + 3 => rfl

/-! ## StlBoilerplate (`src/Utilities/StlBoilerplate.hpp`) -/

/-- The conversion `static_cast<size_t>(n)` of a `std::ptrdiff_t`: the value modulo `2^64`. -/
def to_size_t (n : Int) : Nat :=
  (n % 18446744073709551616).toNat

/-- The conversion `static_cast<std::ptrdiff_t>(x)` of a `size_t`: values from `2^63`
on are read as negative (two's complement). -/
def to_ptrdiff_t (x : Nat) : Int :=
  if x % 18446744073709551616 < 9223372036854775808 then
    ((x % 18446744073709551616 : Nat) : Int)
  else ((x % 18446744073709551616 : Nat) : Int) - 18446744073709551616

/-- Whether an integer is a value of `std::ptrdiff_t`. -/
def is_ptrdiff_t (n : Int) : Prop :=
  -9223372036854775808 ≤ n ∧ n < 9223372036854775808

instance (n : Int) : Decidable (is_ptrdiff_t n) := by
  unfold is_ptrdiff_t
  infer_instance

/-- An object of a class `Sequence` derived from
`RandomAccessSequence<Sequence, ValueType>`.  The derived class implements `size`
(a `size_t`) and `operator[]`; `address` is the identity of the object, the value
of `dthis()`. -/
structure RandomAccessSequence (α : Type) where
  address : Nat
  size : Nat
  size_lt : size < 18446744073709551616
  subscript : Nat → α

/-- The nested class `const_iterator`: a pointer to the container (`none` is
`nullptr`) and an offset of type `size_t`. -/
structure const_iterator (α : Type) where
  container_ : Option (RandomAccessSequence α)
  offset_ : Nat

/-- The nested class `iterator`.  Its members are those of `const_iterator` word for
word; the two differ in the constness of the reference they give out, which
values do not record. -/
abbrev iterator (α : Type) := const_iterator α

/-- The exception `std::out_of_range` with its message. -/
structure out_of_range where
  what : String
  deriving DecidableEq, Repr

namespace const_iterator

variable {α : Type}

/-- The comparison `a.container_ == b.container_` of two pointers. -/
def same_container (a b : const_iterator α) : Bool :=
  a.container_.map (·.address) == b.container_.map (·.address)

/-- The operator `*it`: `(*container_)[offset_]`; `none` when `container_` is null. -/
def deref (it : const_iterator α) : Option α :=
  it.container_.map fun c => c.subscript it.offset_

/-- The operator `it += n`: `offset_ += static_cast<size_t>(n)` in `size_t`. -/
def plus_assign (it : const_iterator α) (n : Int) : const_iterator α :=
  { it with offset_ := (it.offset_ + to_size_t n) % 18446744073709551616 }

/-- The operator `a == b`: `a.container_ == b.container_ and a.offset_ == b.offset_`. -/
def eq (a b : const_iterator α) : Bool :=
  same_container a b && a.offset_ == b.offset_

/-- The operator `a - b` of two iterators:
`static_cast<std::ptrdiff_t>(a.offset_) - static_cast<std::ptrdiff_t>(b.offset_)`
after `ASSERT(a.container_ == b.container_, ...)`.  `none` when the assertion
fails or when the signed subtraction overflows. -/
def difference (a b : const_iterator α) : Option Int :=
  if same_container a b then
    let d := to_ptrdiff_t a.offset_ - to_ptrdiff_t b.offset_
    if is_ptrdiff_t d then some d else none
  else none

/-- The operator `++it`: `*dthis() += 1`. -/
def pre_increment (it : const_iterator α) : const_iterator α :=
  it.plus_assign 1

/-- The operator `it++`: the value returned and the iterator afterwards. -/
def post_increment (it : const_iterator α) : const_iterator α × const_iterator α :=
  (it, it.pre_increment)

/-- The operator `--it`: `*dthis() += -1`. -/
def pre_decrement (it : const_iterator α) : const_iterator α :=
  it.plus_assign (-1)

/-- The operator `it--`: the value returned and the iterator afterwards. -/
def post_decrement (it : const_iterator α) : const_iterator α × const_iterator α :=
  (it, it.pre_decrement)

/-- The operator `it -= n`: `*dthis() += -n`. -/
def minus_assign (it : const_iterator α) (n : Int) : const_iterator α :=
  it.plus_assign (-n)

/-- The operator `it[n]`: `auto temp = *dthis(); temp += n; return *temp;`. -/
def subscript (it : const_iterator α) (n : Int) : Option α :=
  (it.plus_assign n).deref

/-- The operator `a != b`: `not(a == b)`. -/
def ne (a b : const_iterator α) : Bool :=
  !(a.eq b)

/-- The operator `a < b`: `b - a > 0`. -/
def lt (a b : const_iterator α) : Option Bool :=
  (b.difference a).map fun d => decide (d > 0)

/-- The operator `a > b`: `b < a`. -/
def gt (a b : const_iterator α) : Option Bool :=
  b.lt a

/-- The operator `a <= b`: `not(a > b)`. -/
def le (a b : const_iterator α) : Option Bool :=
  (a.gt b).map fun r => !r

/-- The operator `a >= b`: `not(a < b)`. -/
def ge (a b : const_iterator α) : Option Bool :=
  (a.lt b).map fun r => !r

/-- The operator `a + n`: `auto result = a; result += n; return result;`. -/
def plus (a : const_iterator α) (n : Int) : const_iterator α :=
  a.plus_assign n

/-- The operator `n + a`: `a + n`. -/
def plus_left (n : Int) (a : const_iterator α) : const_iterator α :=
  a.plus n

/-- The operator `a - n`: `auto result = a; result -= n; return result;`. -/
def minus (a : const_iterator α) (n : Int) : const_iterator α :=
  a.minus_assign n

end const_iterator

/-- The class template `std::reverse_iterator<Iter>` of the C++ standard library:
it holds `current`, and an iterator made from `it` designates the element before
`it`. -/
structure reverse_iterator (α : Type) where
  current : const_iterator α

namespace reverse_iterator

variable {α : Type}

/-- The operator `*r` of `std::reverse_iterator`: `Iter tmp = current; return *--tmp;`. -/
def deref (r : reverse_iterator α) : Option α :=
  r.current.pre_decrement.deref

/-- The operator `++r` of `std::reverse_iterator`: `--current`. -/
def pre_increment (r : reverse_iterator α) : reverse_iterator α :=
  ⟨r.current.pre_decrement⟩

/-- The operator `a != b` of `std::reverse_iterator`: `a.base() != b.base()`. -/
def ne (a b : reverse_iterator α) : Bool :=
  a.current.ne b.current

end reverse_iterator

namespace RandomAccessSequence

variable {α : Type}

/-- The member `begin()`: `{dthis(), 0}`. -/
def begin (s : RandomAccessSequence α) : const_iterator α :=
  ⟨some s, 0⟩

/-- The member `cbegin()`: `begin()`. -/
def cbegin (s : RandomAccessSequence α) : const_iterator α :=
  s.begin

/-- The member `end()`: `{dthis(), dthis()->size()}`. -/
def end_ (s : RandomAccessSequence α) : const_iterator α :=
  ⟨some s, s.size⟩

/-- The member `cend()`: `end()`. -/
def cend (s : RandomAccessSequence α) : const_iterator α :=
  s.end_

/-- The member `rbegin()`: `reverse_iterator(end())`. -/
def rbegin (s : RandomAccessSequence α) : reverse_iterator α :=
  ⟨s.end_⟩

/-- The member `crbegin()`: `rbegin()`. -/
def crbegin (s : RandomAccessSequence α) : reverse_iterator α :=
  s.rbegin

/-- The member `rend()`: `reverse_iterator(begin())`. -/
def rend (s : RandomAccessSequence α) : reverse_iterator α :=
  ⟨s.begin⟩

/-- The member `crend()`: `rend()`. -/
def crend (s : RandomAccessSequence α) : reverse_iterator α :=
  s.rend

/-- The member `max_size()`: `std::numeric_limits<size_type>::max()`. -/
def max_size (_ : RandomAccessSequence α) : Nat :=
  18446744073709551615

/-- The member `empty()`: `begin() == end()`. -/
def empty (s : RandomAccessSequence α) : Bool :=
  s.begin.eq s.end_

/-- The member `front()`: `*begin()`. -/
def front (s : RandomAccessSequence α) : Option α :=
  s.begin.deref

/-- The member `back()`: `*(end() - 1)`. -/
def back (s : RandomAccessSequence α) : Option α :=
  (s.end_.minus 1).deref

/-- The member `at(n)`, const and non-const alike: `std::out_of_range` when
`n >= size()`, else `(*dthis())[n]`. -/
def at_ (s : RandomAccessSequence α) (n : Nat) : Except out_of_range α :=
  if n ≥ s.size then
    .error ⟨"RandomAccessSequence::at " ++ toString n ++ " >= " ++ toString s.size⟩
  else .ok (s.subscript n)

end RandomAccessSequence

/-- The loop `for (; it != last; ++it) { visit(*it); }`: the values dereferenced, in
order.  `none` when the fuel runs out or a null iterator is dereferenced. -/
def traverse {α : Type} : Nat → const_iterator α → const_iterator α → Option (List α)
  | 0, _, _ => none
  | fuel + 1, it, last =>
    if it.ne last then
      match it.deref, traverse fuel it.pre_increment last with
      | some x, some rest => some (x :: rest)
      | _, _ => none
    else some []

/-- The loop `for (; r != last; ++r) { visit(*r); }` over reverse iterators. -/
def reverse_traverse {α : Type} :
    Nat → reverse_iterator α → reverse_iterator α → Option (List α)
  | 0, _, _ => none
  | fuel + 1, r, last =>
    if r.ne last then
      match r.deref, reverse_traverse fuel r.pre_increment last with
      | some x, some rest => some (x :: rest)
      | _, _ => none
    else some []

/-- The algorithm `std::equal(first1, last1, first2)` of the C++ standard library:
`for (; first1 != last1; ++first1, ++first2) if (!(*first1 == *first2)) return false;
return true;`. -/
def std_equal {α : Type} [BEq α] :
    Nat → const_iterator α → const_iterator α → const_iterator α → Option Bool
  | 0, _, _, _ => none
  | fuel + 1, first1, last1, first2 =>
    if first1.ne last1 then
      match first1.deref, first2.deref with
      | some x, some y =>
        if !(x == y) then some false
        else std_equal fuel first1.pre_increment last1 first2.pre_increment
      | _, _ => none
    else some true

/-- The algorithm `std::lexicographical_compare(first1, last1, first2, last2)` of the
C++ standard library:
`for (; first1 != last1 && first2 != last2; ++first1, ++first2) {
if (*first1 < *first2) return true; if (*first2 < *first1) return false; }
return first1 == last1 && first2 != last2;`. -/
def std_lexicographical_compare {α : Type} [LT α] [DecidableRel (fun x y : α => x < y)] :
    Nat → const_iterator α → const_iterator α → const_iterator α → const_iterator α →
      Option Bool
  | 0, _, _, _, _ => none
  | fuel + 1, first1, last1, first2, last2 =>
    if first1.ne last1 && first2.ne last2 then
      match first1.deref, first2.deref with
      | some x, some y =>
        if x < y then some true
        else if y < x then some false
        else std_lexicographical_compare fuel first1.pre_increment last1
          first2.pre_increment last2
      | _, _ => none
    else some (first1.eq last1 && first2.ne last2)

namespace RandomAccessSequence

variable {α : Type}

/-- The operator `a == b` on sequences:
`a.size() == b.size() and std::equal(a.begin(), a.end(), b.begin())`. -/
def eq [BEq α] (fuel : Nat) (a b : RandomAccessSequence α) : Option Bool :=
  if a.size == b.size then std_equal fuel a.begin a.end_ b.begin else some false

/-- The operator `a != b` on sequences: `not(a == b)`. -/
def ne [BEq α] (fuel : Nat) (a b : RandomAccessSequence α) : Option Bool :=
  (a.eq fuel b).map fun r => !r

/-- The operator `a < b` on sequences:
`std::lexicographical_compare(a.begin(), a.end(), b.begin(), b.end())`. -/
def lt [LT α] [DecidableRel (fun x y : α => x < y)] (fuel : Nat)
    (a b : RandomAccessSequence α) : Option Bool :=
  std_lexicographical_compare fuel a.begin a.end_ b.begin b.end_

/-- The operator `a > b` on sequences: `b < a`. -/
def gt [LT α] [DecidableRel (fun x y : α => x < y)] (fuel : Nat)
    (a b : RandomAccessSequence α) : Option Bool :=
  b.lt fuel a

/-- The operator `a <= b` on sequences: `not(a > b)`. -/
def le [LT α] [DecidableRel (fun x y : α => x < y)] (fuel : Nat)
    (a b : RandomAccessSequence α) : Option Bool :=
  (a.gt fuel b).map fun r => !r

/-- The operator `a >= b` on sequences: `not(a < b)`. -/
def ge [LT α] [DecidableRel (fun x y : α => x < y)] (fuel : Nat)
    (a b : RandomAccessSequence α) : Option Bool :=
  (a.lt fuel b).map fun r => !r

end RandomAccessSequence

/-- A sequence for evaluation: the elements of a list, at the given address. -/
def sequence_of_list (address : Nat) (xs : List Int) (h : xs.length < 18446744073709551616) :
    RandomAccessSequence Int :=
  { address := address
    size := xs.length
    size_lt := h
    subscript := fun n => xs.getD n 0 }

/-- The sequence `10, 20, 30` at address 1. -/
def example_sequence : RandomAccessSequence Int :=
  sequence_of_list 1 [10, 20, 30] (by decide)

/-- The sequence `10, 20, 31, 40` at address 2. -/
def example_sequence_b : RandomAccessSequence Int :=
  sequence_of_list 2 [10, 20, 31, 40] (by decide)

/-! ## Theorems -/

section Derivation

variable {D : Type} [DoubleOps D]

/-! ### Lemmas on the derivation -/

theorem shape_coefficients_from_sample_ok (E : External D) (l_max : Nat) (flag : Bool)
    (s : YlmSample D) (h : l_max ≤ s.l_max) :
    shape_coefficients_from_sample E l_max flag s
      = .ok (restricted_negated_coefficients E l_max flag s) := by
  unfold shape_coefficients_from_sample
  rw [if_neg (by omega)]

theorem read_surfaces_cases (E : External D) (files : YlmsFromFile D)
    (samples : List (YlmSample D)) (h : read_surfaces E files = .ok samples) :
    (∃ s, samples = [s]) ∨ (∃ s s_dt, samples = [s, s_dt]) := by
  unfold read_surfaces at h
  split at h
  · split at h
    · injection h with h; exact Or.inl ⟨_, h.symm⟩
    · cases h
  · split at h
    · split at h
      · injection h with h; exact Or.inr ⟨_, _, h.symm⟩
      · cases h
    · cases h
  · cases h

theorem archived_samples_cases (E : External D) (iv : Option (InitialValues D))
    (samples : List (YlmSample D)) (h : archived_samples E iv = .ok samples) :
    ((∀ files, iv ≠ some (.ylms files)) ∧ samples = []) ∨
    (∃ files, iv = some (.ylms files) ∧
      ((∃ s, samples = [s]) ∨ (∃ s s_dt, samples = [s, s_dt]))) := by
  match iv, h with
  | none, h => left; injection h with h; exact ⟨by simp, h.symm⟩
  | some (.kerr_schild ks), h => left; injection h with h; exact ⟨by simp, h.symm⟩
  | some (.ylms files), h => right; exact ⟨files, rfl, read_surfaces_cases E files samples h⟩

theorem auto_size_values_eq (E : External D) (iv : Option (InitialValues D))
    (samples : List (YlmSample D)) (hs : archived_samples E iv = .ok samples) :
    auto_size_values E iv
      = .ok ((samples.map (size_value_from_sample E) ++ List.replicate 4 0).take 4) := by
  unfold auto_size_values
  rw [hs]

theorem horizon_shape_coefficients_returns (E : External D) (r : D)
    (iv : Option (InitialValues D)) (l_max : Nat) (samples : List (YlmSample D))
    (hs : archived_samples E iv = .ok samples) (hres : ∀ s ∈ samples, l_max ≤ s.l_max) :
    ∃ v, horizon_shape_coefficients E r iv l_max = .ok v := by
  match iv, hs with
  | none, _ => exact ⟨_, rfl⟩
  | some (.kerr_schild ks), _ => exact ⟨_, rfl⟩
  | some (.ylms files), hs =>
    have hs' : read_surfaces E files = .ok samples := hs
    unfold horizon_shape_coefficients
    simp only [hs']
    rcases read_surfaces_cases E files samples hs' with ⟨s, rfl⟩ | ⟨s, s_dt, rfl⟩
    · exact ⟨_, shape_coefficients_from_sample_ok E l_max _ s (hres s (by simp))⟩
    · exact ⟨_, shape_coefficients_from_sample_ok E l_max _ s (hres s (by simp))⟩

theorem time_derivative_shape_coefficients_returns (E : External D)
    (iv : Option (InitialValues D)) (l_max : Nat) (samples : List (YlmSample D))
    (hs : archived_samples E iv = .ok samples) (hres : ∀ s ∈ samples, l_max ≤ s.l_max) :
    ∃ v, time_derivative_shape_coefficients E iv l_max = .ok v := by
  unfold time_derivative_shape_coefficients
  rw [hs]
  split
  · next a s_dt files heq =>
    injection heq with heq
    subst heq
    exact ⟨_, shape_coefficients_from_sample_ok E l_max _ s_dt (hres s_dt (by simp))⟩
  · exact ⟨_, rfl⟩
  · next heq => cases heq

theorem initial_shape_and_size_funcs_returns (E : External D) {c : Bool}
    {Object : ObjectLabel} (o : ShapeMapOptions D c Object) (r : D)
    (samples : List (YlmSample D))
    (hs : archived_samples E o.initial_values = .ok samples)
    (hres : ∀ s ∈ samples, o.l_max ≤ s.l_max) :
    ∃ v0 v1, horizon_shape_coefficients E r o.initial_values o.l_max = .ok v0 ∧
      time_derivative_shape_coefficients E o.initial_values o.l_max = .ok v1 ∧
      initial_shape_and_size_funcs E o r =
        .ok ([v0, v1, List.replicate (E.spectral_size o.l_max o.l_max) 0],
          match o.initial_size_values with
          | some (a0, a1, a2) => [[a0], [a1], [a2], [0]]
          | none =>
            ((samples.map (size_value_from_sample E) ++ List.replicate 4 0).take 4).map
              fun v => [v]) := by
  obtain ⟨v0, h0⟩ := horizon_shape_coefficients_returns E r _ _ samples hs hres
  obtain ⟨v1, h1⟩ := time_derivative_shape_coefficients_returns E _ _ samples hs hres
  refine ⟨v0, v1, h0, h1, ?_⟩
  unfold initial_shape_and_size_funcs
  simp only [h0, h1, auto_size_values_eq E _ samples hs, bind, Except.bind, pure, Except.pure]

theorem initial_shape_and_size_funcs_inv (E : External D) {c : Bool}
    {Object : ObjectLabel} (o : ShapeMapOptions D c Object) (r : D)
    (shape size : List (DataVector D))
    (h : initial_shape_and_size_funcs E o r = .ok (shape, size)) :
    ∃ samples, archived_samples E o.initial_values = .ok samples ∧
      size = (match o.initial_size_values with
          | some (a0, a1, a2) => [[a0], [a1], [a2], [0]]
          | none =>
            ((samples.map (size_value_from_sample E) ++ List.replicate 4 0).take 4).map
              fun v => [v]) := by
  unfold initial_shape_and_size_funcs at h
  cases h0 : horizon_shape_coefficients E r o.initial_values o.l_max with
  | error e => simp [h0, bind, Except.bind] at h
  | ok v0 =>
    cases h1 : time_derivative_shape_coefficients E o.initial_values o.l_max with
    | error e => simp [h0, h1, bind, Except.bind] at h
    | ok v1 =>
      cases hs : archived_samples E o.initial_values with
      | error e =>
        have : auto_size_values E o.initial_values = .error e := by
          unfold auto_size_values; rw [hs]
        simp [h0, h1, this, bind, Except.bind] at h
      | ok samples =>
        refine ⟨samples, rfl, ?_⟩
        simp only [h0, h1, auto_size_values_eq E _ samples hs, bind, Except.bind, pure,
          Except.pure] at h
        injection h with h
        injection h with _ h
        exact h.symm

theorem mem_modes (l_max l : Nat) (m : Int) :
    (l, m) ∈ modes l_max ↔ l ≤ l_max ∧ -(l : Int) ≤ m ∧ m ≤ l := by
  simp only [modes, List.mem_flatMap, List.mem_map, List.mem_range, Prod.mk.injEq]
  constructor
  · rintro ⟨l', hl', j, hj, rfl, rfl⟩
    omega
  · rintro ⟨h1, h2, h3⟩
    exact ⟨l, by omega, (m + l).toNat, by omega, rfl, by omega⟩

theorem find?_of_nodup_map {β : Type} (f : β → Nat) (L : List β)
    (hnd : (L.map f).Nodup) (x : β) (hx : x ∈ L) :
    L.find? (fun y => f y == f x) = some x := by
  induction L with
  | nil => cases hx
  | cons a L ih =>
    rw [List.map_cons, List.nodup_cons] at hnd
    rcases List.mem_cons.1 hx with rfl | hx'
    · simp
    · have hne : f a ≠ f x := by
        intro h
        exact hnd.1 (h ▸ List.mem_map_of_mem f hx')
      rw [List.find?_cons_of_neg _ (by simpa using hne)]
      exact ih hnd.2 hx'

theorem length_foldl_set {α β : Type} (f : β → Nat) (z : α) (ps : List β) (v : List α) :
    (ps.foldl (fun acc p => acc.set (f p) z) v).length = v.length := by
  induction ps generalizing v with
  | nil => rfl
  | cons p ps ih => simp [List.foldl_cons, ih]

theorem getElem?_foldl_set {α β : Type} (f : β → Nat) (z : α) (ps : List β)
    (v : List α) (k : Nat) :
    (ps.foldl (fun acc p => acc.set (f p) z) v)[k]? =
      if ∃ p ∈ ps, f p = k then v[k]?.map (fun _ => z) else v[k]? := by
  induction ps generalizing v with
  | nil => simp
  | cons p ps ih =>
    rw [List.foldl_cons, ih]
    by_cases hk : f p = k
    · subst hk
      by_cases hex : ∃ q ∈ ps, f q = f p
      · rw [if_pos hex, if_pos ⟨p, by simp, rfl⟩]
        by_cases hlt : f p < v.length
        · simp [List.getElem?_set_self, hlt]
        · simp [List.getElem?_eq_none (show (v.set (f p) z).length ≤ f p by simpa using hlt),
            List.getElem?_eq_none (Nat.le_of_not_lt hlt)]
      · rw [if_neg hex, if_pos ⟨p, by simp, rfl⟩]
        by_cases hlt : f p < v.length
        · simp [List.getElem?_set_self, hlt]
        · simp [List.getElem?_eq_none (show (v.set (f p) z).length ≤ f p by simpa using hlt),
            List.getElem?_eq_none (Nat.le_of_not_lt hlt)]
    · rw [List.getElem?_set_ne hk]
      have : (∃ q ∈ p :: ps, f q = k) ↔ ∃ q ∈ ps, f q = k := by
        constructor
        · rintro ⟨q, hq, hqk⟩
          rcases List.mem_cons.1 hq with rfl | hq'
          · exact absurd hqk hk
          · exact ⟨q, hq', hqk⟩
        · rintro ⟨q, hq, hqk⟩
          exact ⟨q, List.mem_cons_of_mem _ hq, hqk⟩
      simp only [this]

theorem length_restrict (E : External D) (file_l_max l_max : Nat) (cs : DataVector D) :
    (restrict E file_l_max l_max cs).length = E.spectral_size l_max l_max := by
  simp [restrict]

theorem length_zero_low_order_modes (E : External D) (l_max : Nat) (v : DataVector D) :
    (zero_low_order_modes E l_max v).length = v.length := by
  unfold zero_low_order_modes
  exact length_foldl_set _ _ _ _

theorem length_restricted_negated_coefficients (E : External D) (l_max : Nat)
    (flag : Bool) (s : YlmSample D) :
    (restricted_negated_coefficients E l_max flag s).length
      = E.spectral_size l_max l_max := by
  unfold restricted_negated_coefficients
  cases flag <;> simp [length_zero_low_order_modes, length_restrict]

theorem getElem?_restrict_mode (E : External D) (file_l_max l_max : Nat)
    (cs : DataVector D) (hlayout : E.layout_ok l_max) (lm : Nat × Int)
    (hlm : lm ∈ modes l_max) :
    (restrict E file_l_max l_max cs)[E.coefficient_index l_max lm.1 lm.2]?
      = some (cs.getD (E.coefficient_index file_l_max lm.1 lm.2) 0) := by
  have hlt := hlayout.1 lm hlm
  have hfind := find?_of_nodup_map (fun p : Nat × Int => E.coefficient_index l_max p.1 p.2)
    (modes l_max) hlayout.2 lm hlm
  simp only [restrict, List.getElem?_map, List.getElem?_range hlt, Option.map_some']
  rw [hfind]

theorem getElem?_restrict_unused (E : External D) (file_l_max l_max : Nat)
    (cs : DataVector D) (k : Nat) (hk : k < E.spectral_size l_max l_max)
    (hun : ∀ lm ∈ modes l_max, E.coefficient_index l_max lm.1 lm.2 ≠ k) :
    (restrict E file_l_max l_max cs)[k]? = some 0 := by
  have hfind : (modes l_max).find? (fun lm => E.coefficient_index l_max lm.1 lm.2 == k)
      = none := by
    rw [List.find?_eq_none]
    intro lm hlm
    simpa using hun lm hlm
  simp only [restrict, List.getElem?_map, List.getElem?_range hk, Option.map_some']
  rw [hfind]

theorem getElem?_restricted_negated_mode (E : External D) (l_max : Nat) (flag : Bool)
    (s : YlmSample D) (hlayout : E.layout_ok l_max) (l : Nat) (m : Int)
    (hlm : (l, m) ∈ modes l_max) :
    (restricted_negated_coefficients E l_max flag s)[E.coefficient_index l_max l m]?
      = some (if flag = true ∧ l < 2 then 0
          else (-1) * s.coefficients.getD (E.coefficient_index s.l_max l m) 0) := by
  have hneg : ((restrict E s.l_max l_max s.coefficients).map
      fun c => (-1) * c)[E.coefficient_index l_max l m]?
      = some ((-1) * s.coefficients.getD (E.coefficient_index s.l_max l m) 0) := by
    rw [List.getElem?_map, getElem?_restrict_mode E s.l_max l_max _ hlayout (l, m) hlm]
    rfl
  unfold restricted_negated_coefficients
  cases flag with
  | false => simpa using hneg
  | true =>
    simp only [if_true, zero_low_order_modes, getElem?_foldl_set, hneg, true_and]
    by_cases hl : l < 2
    · rw [if_pos hl, if_pos]
      · rfl
      · exact ⟨(l, m), List.mem_filter.2 ⟨hlm, by simpa using hl⟩, rfl⟩
    · rw [if_neg hl, if_neg]
      rintro ⟨p, hp, hpe⟩
      rw [List.mem_filter] at hp
      have := List.inj_on_of_nodup_map hlayout.2 hp.1 hlm hpe
      subst this
      exact hl (by simpa using hp.2)

theorem getElem?_restricted_negated_unused (E : External D) (l_max : Nat) (flag : Bool)
    (s : YlmSample D) (k : Nat) (hk : k < E.spectral_size l_max l_max)
    (hun : ∀ lm ∈ modes l_max, E.coefficient_index l_max lm.1 lm.2 ≠ k) :
    (restricted_negated_coefficients E l_max flag s)[k]? = some ((-1) * 0) := by
  have hneg : ((restrict E s.l_max l_max s.coefficients).map fun c => (-1) * c)[k]?
      = some ((-1) * 0) := by
    rw [List.getElem?_map, getElem?_restrict_unused E s.l_max l_max _ k hk hun]
    rfl
  unfold restricted_negated_coefficients
  cases flag with
  | false => simpa using hneg
  | true =>
    simp only [if_true, zero_low_order_modes, getElem?_foldl_set, hneg]
    rw [if_neg]
    rintro ⟨p, hp, hpe⟩
    exact hun p (List.mem_filter.1 hp).1 hpe

theorem horizon_shape_coefficients_ylms (E : External D) (r : D) (files : YlmsFromFile D)
    (l_max : Nat) (s : YlmSample D) (rest : List (YlmSample D))
    (hs : archived_samples E (some (.ylms files)) = .ok (s :: rest))
    (hres : l_max ≤ s.l_max) :
    horizon_shape_coefficients E r (some (.ylms files)) l_max
      = .ok (restricted_negated_coefficients E l_max files.set_l1_coefs_to_zero s) := by
  have hs' : read_surfaces E files = .ok (s :: rest) := hs
  unfold horizon_shape_coefficients
  simp only [hs']
  exact shape_coefficients_from_sample_ok E l_max _ s hres

theorem time_derivative_shape_coefficients_two (E : External D)
    (files : YlmsFromFile D) (l_max : Nat) (s s_dt : YlmSample D)
    (hs : archived_samples E (some (.ylms files)) = .ok [s, s_dt])
    (hres : l_max ≤ s_dt.l_max) :
    time_derivative_shape_coefficients E (some (.ylms files)) l_max = .ok
      (restricted_negated_coefficients E l_max files.set_l1_coefs_to_zero s_dt) := by
  unfold time_derivative_shape_coefficients
  rw [hs]
  exact shape_coefficients_from_sample_ok E l_max _ s_dt hres

theorem time_derivative_shape_coefficients_zero (E : External D)
    (iv : Option (InitialValues D)) (l_max : Nat) (samples : List (YlmSample D))
    (hs : archived_samples E iv = .ok samples) (hlen : samples.length ≠ 2) :
    time_derivative_shape_coefficients E iv l_max
      = .ok (List.replicate (E.spectral_size l_max l_max) 0) := by
  unfold time_derivative_shape_coefficients
  rw [hs]
  split
  · next heq => injection heq with heq; subst heq; simp at hlen
  · rfl
  · next heq => cases heq

/-! ### The concrete setting -/

theorem example_layout_ok : example_external.layout_ok 2 := by
  decide

theorem example_archived_samples (size : Option (ℚ × ℚ × ℚ)) :
    archived_samples example_external (example_options size).initial_values
      = .ok example_samples := by
  simp [archived_samples, read_surfaces, example_options, example_files,
    read_surface_ylm_single_time, example_external, within_epsilon, DoubleOps.le,
    example_samples]

theorem example_samples_resolution (size : Option (ℚ × ℚ × ℚ)) :
    ∀ s ∈ example_samples, (example_options size).l_max ≤ s.l_max := by
  simp [example_samples, example_options]

theorem example_time_derivative_shape :
    time_derivative_shape_coefficients example_external
        (example_options none).initial_values (example_options none).l_max
      = .ok [0, 0, 0, 0, 0, 0, -17, -19, -21, 0, 0, 0, 0, 0, 0, 0, -51, -53] := by
  have h := time_derivative_shape_coefficients_two example_external example_files 2
    ⟨3 / 2, 3, example_value_coefficients⟩ ⟨3 / 2, 3, example_dt_coefficients⟩
    (example_archived_samples none) (by decide)
  have hv : restricted_negated_coefficients example_external 2
      example_files.set_l1_coefs_to_zero ⟨3 / 2, 3, example_dt_coefficients⟩
      = [0, 0, 0, 0, 0, 0, -17, -19, -21, 0, 0, 0, 0, 0, 0, 0, -51, -53] := by
    simp [restricted_negated_coefficients, restrict, zero_low_order_modes, modes,
      example_external, example_dt_coefficients, example_files, List.range,
      List.range.loop]
  rw [hv] at h
  exact h

/-! ### Shape and size initial data -/

/-- C1: when `initial_size_values` is an explicit triple `(v0, v1, v2)`, every result
that `initial_shape_and_size_funcs` returns has the size coefficients
`[v0, v1, v2, 0.0]`, whatever the shape setting (spherical, analytic or archived)
and whatever the archive holds; and it does return them whenever the archived
surfaces (none for the spherical and analytic settings) are found at sufficient
resolution. -/
theorem explicit_size_values_returned_verbatim (E : External D) {c : Bool}
    {Object : ObjectLabel} (o : ShapeMapOptions D c Object) (r v0 v1 v2 : D)
    (hsize : o.initial_size_values = some (v0, v1, v2)) :
    (∀ shape size, initial_shape_and_size_funcs E o r = .ok (shape, size) →
        size = [[v0], [v1], [v2], [0]]) ∧
    (∀ samples, archived_samples E o.initial_values = .ok samples →
        (∀ s ∈ samples, o.l_max ≤ s.l_max) →
        ∃ shape, initial_shape_and_size_funcs E o r
          = .ok (shape, [[v0], [v1], [v2], [0]])) := by
  constructor
  · intro shape size h
    obtain ⟨samples, _, hsz⟩ := initial_shape_and_size_funcs_inv E o r shape size h
    rw [hsize] at hsz
    exact hsz
  · intro samples hs hres
    obtain ⟨v0', v1', _, _, h⟩ := initial_shape_and_size_funcs_returns E o r samples hs hres
    rw [hsize] at h
    exact ⟨_, h⟩

/-- Witness for C1: the archived setting of the test with explicit size values. -/
theorem explicit_size_values_returned_verbatim_witness :
    ∃ shape, initial_shape_and_size_funcs example_external
        (example_options (some (1 / 2, 1, 5 / 2))) (1 / 2)
      = .ok (shape, [[1 / 2], [1], [5 / 2], [0]]) :=
  (explicit_size_values_returned_verbatim example_external
    (example_options (some (1 / 2, 1, 5 / 2))) (1 / 2) (1 / 2) 1 (5 / 2) rfl).2
    example_samples (example_archived_samples _) (example_samples_resolution _)

/-- C2: for an archived setting whose value surface `s` is stored at an order
`s.l_max >= l_max`, the shape vector `horizon_shape_coefficients` produces has
length `spectral_size(l_max, l_max)`; its entry for every mode `(l, m)` with
`l <= l_max`, `|m| <= l` is `-1.0` times the stored coefficient of the same mode,
located with the file's own order, except that under `SetL1CoefsToZero` the
entries with `l < 2` are `0.0`; and every position of the buffer that holds no
such mode is `-1.0 * 0.0`, so nothing of the modes with `l > l_max` is kept. -/
theorem archived_shape_vector_entries (E : External D) (r : D) (files : YlmsFromFile D)
    (l_max : Nat) (s : YlmSample D) (rest : List (YlmSample D))
    (hlayout : E.layout_ok l_max)
    (hs : archived_samples E (some (.ylms files)) = .ok (s :: rest))
    (hres : l_max ≤ s.l_max) :
    ∃ v, horizon_shape_coefficients E r (some (.ylms files)) l_max = .ok v ∧
      v.length = E.spectral_size l_max l_max ∧
      (∀ (l : Nat) (m : Int), l ≤ l_max → -(l : Int) ≤ m → m ≤ l →
        v[E.coefficient_index l_max l m]? = some
          (if files.set_l1_coefs_to_zero = true ∧ l < 2 then 0
            else (-1) * s.coefficients.getD (E.coefficient_index s.l_max l m) 0)) ∧
      (∀ k, k < E.spectral_size l_max l_max →
        (∀ lm ∈ modes l_max, E.coefficient_index l_max lm.1 lm.2 ≠ k) →
        v[k]? = some ((-1) * 0)) := by
  refine ⟨_, horizon_shape_coefficients_ylms E r files l_max s rest hs hres,
    length_restricted_negated_coefficients E l_max _ s, ?_, ?_⟩
  · intro l m h1 h2 h3
    exact getElem?_restricted_negated_mode E l_max _ s hlayout l m
      ((mem_modes l_max l m).2 ⟨h1, h2, h3⟩)
  · intro k hk hun
    exact getElem?_restricted_negated_unused E l_max _ s k hk hun

/-- Witness for C2: the archived setting of the test, restricted from order 3 to
order 2. -/
theorem archived_shape_vector_entries_witness :
    ∃ v, horizon_shape_coefficients example_external (1 / 2)
        (some (.ylms example_files)) 2 = .ok v ∧
      v.length = example_external.spectral_size 2 2 ∧
      (∀ (l : Nat) (m : Int), l ≤ 2 → -(l : Int) ≤ m → m ≤ l →
        v[example_external.coefficient_index 2 l m]? = some
          (if example_files.set_l1_coefs_to_zero = true ∧ l < 2 then 0
            else (-1) * example_value_coefficients.getD
              (example_external.coefficient_index 3 l m) 0)) ∧
      (∀ k, k < example_external.spectral_size 2 2 →
        (∀ lm ∈ modes 2, example_external.coefficient_index 2 lm.1 lm.2 ≠ k) →
        v[k]? = some ((-1) * 0)) :=
  archived_shape_vector_entries example_external (1 / 2) example_files 2
    ⟨3 / 2, 3, example_value_coefficients⟩ [⟨3 / 2, 3, example_dt_coefficients⟩]
    example_layout_ok (example_archived_samples none) (by decide)

/-- C3: for an archived setting whose value surface has the `l = 0` coefficient `c0`,
with `SizeInitialValues: Auto`, the derivation returns and size slot 0 is
`-1.0 * c0 * sqrt(pi / 2)`. -/
theorem auto_size_value_from_archived_l0 (E : External D) {c : Bool}
    {Object : ObjectLabel} (o : ShapeMapOptions D c Object) (r : D)
    (s : YlmSample D) (rest : List (YlmSample D)) (c0 : D)
    (hauto : o.initial_size_values = none)
    (hs : archived_samples E o.initial_values = .ok (s :: rest))
    (hres : ∀ x ∈ s :: rest, o.l_max ≤ x.l_max)
    (hc0 : s.coefficients[E.coefficient_index s.l_max 0 0]? = some c0) :
    ∃ shape size, initial_shape_and_size_funcs E o r = .ok (shape, size) ∧
      size[0]? = some [(-1) * c0 * E.sqrt_half_pi] := by
  obtain ⟨v0, v1, _, _, h⟩ := initial_shape_and_size_funcs_returns E o r _ hs hres
  rw [hauto] at h
  refine ⟨_, _, h, ?_⟩
  simp [size_value_from_sample, List.getD, hc0]

/-- Witness for C3: the archived setting of the test with `Auto`; the stored `l = 0`
coefficient is `1.0`. -/
theorem auto_size_value_from_archived_l0_witness :
    ∃ shape size, initial_shape_and_size_funcs example_external (example_options none)
        (1 / 2) = .ok (shape, size) ∧
      size[0]? = some [(-1) * 1 * example_external.sqrt_half_pi] :=
  auto_size_value_from_archived_l0 example_external (example_options none) (1 / 2)
    ⟨3 / 2, 3, example_value_coefficients⟩ [⟨3 / 2, 3, example_dt_coefficients⟩] 1 rfl
    (example_archived_samples none) (example_samples_resolution none)
    (by simp [example_external, example_value_coefficients])

/-- C4, refuted as stated: with `SizeInitialValues: Auto` and an archived setting that
names a time-derivative subfile, size slot 1 is not `0.0`: it is the size value of
the time-derivative surface (here `-1.0 * 1.0 * sqrt(pi / 2)`), as the test expects
(`-1.0 * strahlkorpers[1].coefficients()[0] * sqrt(0.5 * M_PI)`). -/
theorem auto_size_slot_one_counterexample :
    (example_options none).initial_size_values = none ∧
    ∃ shape size : List (DataVector ℚ),
      initial_shape_and_size_funcs example_external (example_options none) (1 / 2)
        = .ok (shape, size) ∧
      size[1]? = some [(-(5644425081792261 / 4503599627370496) : ℚ)] ∧
      size[1]? ≠ some [0] := by
  refine ⟨rfl, ?_⟩
  obtain ⟨v0, v1, _, _, h⟩ := initial_shape_and_size_funcs_returns example_external
    (example_options none) (1 / 2) example_samples (example_archived_samples none)
    (example_samples_resolution none)
  refine ⟨_, _, h, ?_⟩
  have h1 : (match (example_options none).initial_size_values with
      | some (a0, a1, a2) => [[a0], [a1], [a2], [0]]
      | none => (((example_samples.map (size_value_from_sample example_external))
          ++ List.replicate 4 0).take 4).map fun v => [v])[1]?
      = some [-(5644425081792261 / 4503599627370496 : ℚ)] := by
    simp [example_options, example_samples, size_value_from_sample, example_external,
      example_dt_coefficients]
  refine ⟨h1, fun hc => ?_⟩
  have h2 := h1.symm.trans hc
  norm_num at h2

/-- C4, amended: with `SizeInitialValues: Auto` the derivation returns four size slots
of which slots 2 and 3 are `0.0`; slot 1 is `0.0` for the spherical and the
analytic setting and for an archived setting that names only the value subfile,
and for an archived setting that names a time-derivative subfile it is
`-1.0 * c1 * sqrt(pi / 2)` with `c1` the stored `l = 0` coefficient of the
time-derivative surface. -/
theorem auto_size_derivative_slots (E : External D) {c : Bool}
    {Object : ObjectLabel} (o : ShapeMapOptions D c Object) (r : D)
    (samples : List (YlmSample D))
    (hauto : o.initial_size_values = none)
    (hs : archived_samples E o.initial_values = .ok samples)
    (hres : ∀ s ∈ samples, o.l_max ≤ s.l_max) :
    ∃ shape size, initial_shape_and_size_funcs E o r = .ok (shape, size) ∧
      size.length = 4 ∧ size[2]? = some [0] ∧ size[3]? = some [0] ∧
      (samples.length ≠ 2 → size[1]? = some [0]) ∧
      (∀ s s_dt, samples = [s, s_dt] → size[1]? = some
        [(-1) * s_dt.coefficients.getD (E.coefficient_index s_dt.l_max 0 0) 0
          * E.sqrt_half_pi]) := by
  obtain ⟨v0, v1, _, _, h⟩ := initial_shape_and_size_funcs_returns E o r samples hs hres
  rw [hauto] at h
  refine ⟨_, _, h, ?_⟩
  rcases archived_samples_cases E _ samples hs with ⟨_, rfl⟩ | ⟨files, _, h'⟩
  · simp [List.replicate]
  · rcases h' with ⟨s, rfl⟩ | ⟨s, s_dt, rfl⟩
    · simp [List.replicate]
    · simp [List.replicate, size_value_from_sample]

/-- Witness for the amended C4: the archived setting of the test with `Auto`. -/
theorem auto_size_derivative_slots_witness :
    ∃ shape size : List (DataVector ℚ),
      initial_shape_and_size_funcs example_external (example_options none) (1 / 2)
        = .ok (shape, size) ∧
      size.length = 4 ∧ size[2]? = some [0] ∧ size[3]? = some [0] ∧
      (example_samples.length ≠ 2 → size[1]? = some [0]) ∧
      (∀ s s_dt, example_samples = [s, s_dt] → size[1]? = some
        [(-1) * s_dt.coefficients.getD
            (example_external.coefficient_index s_dt.l_max 0 0) 0
          * example_external.sqrt_half_pi]) :=
  auto_size_derivative_slots example_external (example_options none) (1 / 2)
    example_samples rfl (example_archived_samples none) (example_samples_resolution none)

/-- C5, refuted as stated: for the archived setting of the test the shape result
has three vectors, not four, and its slot 1 is not an all-zero vector: it holds
the restricted, negated coefficients of the time-derivative surface. -/
theorem shape_result_counterexample :
    ∃ shape size : List (DataVector ℚ),
      initial_shape_and_size_funcs example_external (example_options none) (1 / 2)
        = .ok (shape, size) ∧
      shape.length = 3 ∧ shape.length ≠ 4 ∧
      shape[1]? = some
        ([0, 0, 0, 0, 0, 0, -17, -19, -21, 0, 0, 0, 0, 0, 0, 0, -51, -53] : DataVector ℚ) ∧
      shape[1]? ≠ some (List.replicate
        (example_external.spectral_size (example_options none).l_max
          (example_options none).l_max) 0) := by
  obtain ⟨v0, v1, _, h1, h⟩ := initial_shape_and_size_funcs_returns example_external
    (example_options none) (1 / 2) example_samples (example_archived_samples none)
    (example_samples_resolution none)
  rw [example_time_derivative_shape] at h1
  injection h1 with h1
  subst h1
  refine ⟨_, _, h, rfl, by simp, rfl, ?_⟩
  simp [example_external, example_options, List.replicate]

/-- C5, amended: the shape result of `initial_shape_and_size_funcs` is a sequence of
three vectors, each of length `spectral_size(l_max, l_max)`: slot 0 is
`horizon_shape_coefficients(l_max)`, slot 2 is all zero, and slot 1 is all zero
unless the setting is archived and names a time-derivative subfile, in which case
slot 1 holds the restricted, negated coefficients of the time-derivative
surface. -/
theorem shape_result_layout (E : External D) {c : Bool} {Object : ObjectLabel}
    (o : ShapeMapOptions D c Object) (r : D) (samples : List (YlmSample D))
    (hkerr : ∀ (ri mass : D) (spin : D × D × D) (n : Nat),
      (E.kerr_schild_coefficients ri mass spin n).length = E.spectral_size n n)
    (hs : archived_samples E o.initial_values = .ok samples)
    (hres : ∀ s ∈ samples, o.l_max ≤ s.l_max) :
    ∃ v0 v1 size, horizon_shape_coefficients E r o.initial_values o.l_max = .ok v0 ∧
      initial_shape_and_size_funcs E o r
        = .ok ([v0, v1, List.replicate (E.spectral_size o.l_max o.l_max) 0], size) ∧
      v0.length = E.spectral_size o.l_max o.l_max ∧
      v1.length = E.spectral_size o.l_max o.l_max ∧
      (samples.length ≠ 2 → v1 = List.replicate (E.spectral_size o.l_max o.l_max) 0) ∧
      (∀ files s s_dt, o.initial_values = some (.ylms files) → samples = [s, s_dt] →
        v1 = restricted_negated_coefficients E o.l_max files.set_l1_coefs_to_zero s_dt) := by
  obtain ⟨v0, v1, h0, h1, h⟩ := initial_shape_and_size_funcs_returns E o r samples hs hres
  have hv0 : v0.length = E.spectral_size o.l_max o.l_max := by
    rcases archived_samples_cases E _ samples hs with ⟨hiv, _⟩ | ⟨files, hiv, hsh⟩
    · match hio : o.initial_values with
      | none =>
        rw [hio] at h0
        injection h0 with h0
        subst h0
        simp
      | some (.kerr_schild ks) =>
        rw [hio] at h0
        injection h0 with h0
        subst h0
        exact hkerr _ _ _ _
      | some (.ylms files) => exact absurd hio (hiv files)
    · rw [hiv] at h0 hs
      obtain ⟨s, rest, rfl⟩ : ∃ s rest, samples = s :: rest := by
        rcases hsh with ⟨s, rfl⟩ | ⟨s, s_dt, rfl⟩
        · exact ⟨s, [], rfl⟩
        · exact ⟨s, [s_dt], rfl⟩
      rw [horizon_shape_coefficients_ylms E r files o.l_max s rest hs
        (hres s (by simp))] at h0
      injection h0 with h0
      subst h0
      exact length_restricted_negated_coefficients E _ _ s
  have hzero : samples.length ≠ 2 →
      v1 = List.replicate (E.spectral_size o.l_max o.l_max) 0 := by
    intro hlen
    rw [time_derivative_shape_coefficients_zero E _ _ samples hs hlen] at h1
    injection h1 with h1
    exact h1.symm
  have htwo : ∀ files s s_dt, o.initial_values = some (.ylms files) → samples = [s, s_dt] →
      v1 = restricted_negated_coefficients E o.l_max files.set_l1_coefs_to_zero s_dt := by
    intro files s s_dt hiv hsm
    subst hsm
    rw [hiv] at h1 hs
    rw [time_derivative_shape_coefficients_two E files o.l_max s s_dt hs
      (hres s_dt (by simp))] at h1
    injection h1 with h1
    exact h1.symm
  refine ⟨v0, v1, _, h0, h, hv0, ?_, hzero, htwo⟩
  by_cases hlen : samples.length = 2
  · rcases archived_samples_cases E _ samples hs with ⟨_, hnil⟩ | ⟨files, hiv, hsh⟩
    · subst hnil
      simp at hlen
    · rcases hsh with ⟨s, rfl⟩ | ⟨s, s_dt, rfl⟩
      · simp at hlen
      · rw [htwo files s s_dt hiv rfl]
        exact length_restricted_negated_coefficients E _ _ s_dt
  · rw [hzero hlen]
    simp

/-- Witness for the amended C5: the archived setting of the test. -/
theorem shape_result_layout_witness :
    ∃ (v0 v1 : DataVector ℚ) (size : List (DataVector ℚ)),
      horizon_shape_coefficients example_external (1 / 2)
        (example_options none).initial_values (example_options none).l_max = .ok v0 ∧
      initial_shape_and_size_funcs example_external (example_options none) (1 / 2)
        = .ok ([v0, v1, List.replicate (example_external.spectral_size
            (example_options none).l_max (example_options none).l_max) 0], size) ∧
      v0.length = example_external.spectral_size (example_options none).l_max
        (example_options none).l_max ∧
      v1.length = example_external.spectral_size (example_options none).l_max
        (example_options none).l_max ∧
      (example_samples.length ≠ 2 → v1 = List.replicate (example_external.spectral_size
        (example_options none).l_max (example_options none).l_max) 0) ∧
      (∀ files s s_dt, (example_options none).initial_values = some (.ylms files) →
        example_samples = [s, s_dt] →
        v1 = restricted_negated_coefficients example_external (example_options none).l_max
          files.set_l1_coefs_to_zero s_dt) :=
  shape_result_layout example_external (example_options none) (1 / 2) example_samples
    (by intro ri mass spin n; simp [example_external]) (example_archived_samples none)
    (example_samples_resolution none)

/-- C6: `ShapeMapOptions::name()` is `"ShapeMap"` followed by the string form of the
object label: `"ShapeMapA"` for label `A`, `"ShapeMapB"` for label `B` and
`"ShapeMap"` for label `None`; two option objects with the same label have the
same name, whatever their `LMax`, `InitialValues`, `SizeInitialValues` and
`TransitionEndsAtCube`. -/
theorem name_is_ShapeMap_then_label {D1 D2 : Type} {c1 c2 : Bool} (Object : ObjectLabel)
    (o1 : ShapeMapOptions D1 c1 Object) (o2 : ShapeMapOptions D2 c2 Object)
    (oA : ShapeMapOptions D1 c1 .A) (oB : ShapeMapOptions D1 c1 .B)
    (oNone : ShapeMapOptions D1 c1 .None) :
    o1.name = "ShapeMap" ++ get_output Object ∧ o1.name = o2.name ∧
    oA.name = "ShapeMapA" ∧ oB.name = "ShapeMapB" ∧ oNone.name = "ShapeMap" :=
  ⟨rfl, rfl, by simp [ShapeMapOptions.name, get_output],
    by simp [ShapeMapOptions.name, get_output], by simp [ShapeMapOptions.name, get_output]⟩

/-- C8: for the spherical (unspecified) setting and for every analytic setting, with
`SizeInitialValues: Auto`, the derivation returns and all four size slots are
`0.0`. -/
theorem auto_size_zero_without_archive (E : External D) {c : Bool}
    {Object : ObjectLabel} (o : ShapeMapOptions D c Object) (r : D)
    (hauto : o.initial_size_values = none)
    (hiv : ∀ files, o.initial_values ≠ some (.ylms files)) :
    ∃ shape, initial_shape_and_size_funcs E o r = .ok (shape, [[0], [0], [0], [0]]) := by
  have hs : archived_samples E o.initial_values = .ok [] := by
    match h : o.initial_values with
    | none => rfl
    | some (.kerr_schild ks) => rfl
    | some (.ylms files) => exact absurd h (hiv files)
  obtain ⟨v0, v1, _, _, h⟩ := initial_shape_and_size_funcs_returns E o r [] hs (by simp)
  rw [hauto] at h
  exact ⟨_, h⟩

/-- Witness for C8: the analytic setting `Mass: 1.75`, `Spin: [0.5, 0.125, 0.25]`. -/
theorem auto_size_zero_without_archive_witness :
    ∃ shape, initial_shape_and_size_funcs example_external example_analytic_options
        (1 / 2) = .ok (shape, [[0], [0], [0], [0]]) :=
  auto_size_zero_without_archive example_external example_analytic_options (1 / 2) rfl
    (by simp [example_analytic_options])

end Derivation

/-! ### FunctionOfTime -/

theorem noexcept_ne_threw {V : Type} (r : CallResult V) (what : String) :
    noexcept r ≠ .threw what := by
  cases r <;> simp [noexcept]

theorem noexcept_eq_returned {V : Type} (r : CallResult V) (v : V) :
    noexcept r = .returned v ↔ r = .returned v := by
  cases r <;> simp [noexcept]

section FunctionOfTimeConsistency

variable {D S : Type} [DoubleOps D]

theorem func_returns_in_bounds (I : Implementation D S) (f : S) (t : D)
    (ht : in_time_bounds (⟨[I.t_min f, I.t_max f], rfl⟩ : StdArray D 2) t = true) :
    (I.function_of_time.func f t).1 = .returned ⟨[I.derivative f t 0], rfl⟩ ∧
    (I.function_of_time.func_and_deriv f t).1
      = .returned ⟨[I.derivative f t 0, I.derivative f t 1], rfl⟩ ∧
    (I.function_of_time.func_and_2_derivs f t).1
      = .returned ⟨[I.derivative f t 0, I.derivative f t 1, I.derivative f t 2], rfl⟩ := by
  refine ⟨?_, ?_, ?_⟩
  · simp only [FunctionOfTime.func, Implementation.function_of_time, ht, if_true, noexcept]
  · simp only [FunctionOfTime.func_and_deriv, Implementation.function_of_time, ht, if_true,
      noexcept]
  · simp only [FunctionOfTime.func_and_2_derivs, Implementation.function_of_time, ht,
      if_true, noexcept]

theorem func_terminates_out_of_bounds (I : Implementation D S) (f : S) (t : D)
    (ht : in_time_bounds (⟨[I.t_min f, I.t_max f], rfl⟩ : StdArray D 2) t = false) :
    (I.function_of_time.func f t).1 = .terminated ∧
    (I.function_of_time.func_and_deriv f t).1 = .terminated ∧
    (I.function_of_time.func_and_2_derivs f t).1 = .terminated := by
  refine ⟨?_, ?_, ?_⟩
  · simp [FunctionOfTime.func, Implementation.function_of_time, ht, noexcept]
  · simp [FunctionOfTime.func_and_deriv, Implementation.function_of_time, ht, noexcept]
  · simp [FunctionOfTime.func_and_2_derivs, Implementation.function_of_time, ht, noexcept]

theorem example_in_time_bounds :
    in_time_bounds (⟨[example_implementation.t_min (), example_implementation.t_max ()],
      rfl⟩ : StdArray ℚ 2) (1 / 2) = true := by
  simp [in_time_bounds, DoubleOps.le, example_implementation]
  norm_num

theorem example_out_of_time_bounds :
    in_time_bounds (⟨[example_implementation.t_min (), example_implementation.t_max ()],
      rfl⟩ : StdArray ℚ 2) 2 = false := by
  simp [in_time_bounds, DoubleOps.le, example_implementation]

/-- C10, refuted as stated: the derived class `example_function_of_time` has the
bounds `[0, 1]` and its body raises `OutOfDomainError` at `t = 2`, outside of
them; the caller of `func(2)` gets no error report: the call is `noexcept`, so the
program is terminated. -/
theorem func_outside_bounds_counterexample :
    (example_function_of_time.time_bounds ()).1 = .returned ⟨[0, 1], rfl⟩ ∧
    in_time_bounds (⟨[0, 1], rfl⟩ : StdArray ℚ 2) 2 = false ∧
    (example_function_of_time.func_body () 2).1 = .threw "OutOfDomainError" ∧
    (example_function_of_time.func () 2).1 = .terminated ∧
    (example_function_of_time.func () 2).1 ≠ .threw "OutOfDomainError" := by
  have hb : in_time_bounds (⟨[0, 1], rfl⟩ : StdArray ℚ 2) 2 = false := by
    simp [in_time_bounds, DoubleOps.le]
  have hbody : (example_function_of_time.func_body () 2).1 = .threw "OutOfDomainError" := by
    simp [example_function_of_time, hb]
  have hcall : (example_function_of_time.func () 2).1 = .terminated := by
    simp [FunctionOfTime.func, hbody, noexcept]
  refine ⟨rfl, hb, hbody, hcall, ?_⟩
  rw [hcall]
  simp

/-- C10, amended: `func` never reports an error to its caller, whatever class derives
from `FunctionOfTime`: the call returns (exactly when the overriding body
returns) or the program is terminated.  For a function of time as the spec
describes it, with `[t_min, t_max]` as `time_bounds()` gives it: for every `t`
inside, `func` returns the value without error; for every `t` outside, the body
raises `OutOfDomainError` and the call ends in termination, so no value comes
back and nothing is clamped. -/
theorem func_returns_inside_terminates_outside (F : FunctionOfTime D S)
    (I : Implementation D S) (f : S) (t : D) :
    (∀ what, (F.func f t).1 ≠ .threw what) ∧
    (∀ v, (F.func f t).1 = .returned v ↔ (F.func_body f t).1 = .returned v) ∧
    ((∃ v, (F.func f t).1 = .returned v) ∨ (F.func f t).1 = .terminated) ∧
    (I.function_of_time.time_bounds f).1 = .returned ⟨[I.t_min f, I.t_max f], rfl⟩ ∧
    (in_time_bounds (⟨[I.t_min f, I.t_max f], rfl⟩ : StdArray D 2) t = true →
      (I.function_of_time.func f t).1 = .returned ⟨[I.derivative f t 0], rfl⟩) ∧
    (in_time_bounds (⟨[I.t_min f, I.t_max f], rfl⟩ : StdArray D 2) t = false →
      (I.function_of_time.func_body f t).1 = .threw "OutOfDomainError" ∧
      (I.function_of_time.func f t).1 = .terminated ∧
      ∀ v, (I.function_of_time.func f t).1 ≠ .returned v) := by
  refine ⟨fun what => noexcept_ne_threw _ what, fun v => noexcept_eq_returned _ v, ?_, rfl,
    fun ht => (func_returns_in_bounds I f t ht).1, fun ht => ?_⟩
  · show (∃ v, noexcept (F.func_body f t).1 = .returned v) ∨
      noexcept (F.func_body f t).1 = .terminated
    cases (F.func_body f t).1 with
    | returned v => exact Or.inl ⟨v, rfl⟩
    | threw what => exact Or.inr rfl
    | terminated => exact Or.inr rfl
  · have hterm := (func_terminates_out_of_bounds I f t ht).1
    refine ⟨?_, hterm, fun v hv => ?_⟩
    · simp [Implementation.function_of_time, ht]
    · rw [hterm] at hv
      cases hv

/-- Witness for the amended C10: the function `(t * t, t)` on `[0, 1]` returns at
`t = 1/2` and ends in termination at `t = 2`. -/
theorem func_returns_inside_terminates_outside_witness :
    (in_time_bounds (⟨[example_implementation.t_min (), example_implementation.t_max ()],
        rfl⟩ : StdArray ℚ 2) (1 / 2) = true ∧
      (example_implementation.function_of_time.func () (1 / 2)).1
        = .returned ⟨[example_implementation.derivative () (1 / 2) 0], rfl⟩) ∧
    (in_time_bounds (⟨[example_implementation.t_min (), example_implementation.t_max ()],
        rfl⟩ : StdArray ℚ 2) 2 = false ∧
      (example_implementation.function_of_time.func_body () 2).1
        = .threw "OutOfDomainError" ∧
      (example_implementation.function_of_time.func () 2).1 = .terminated ∧
      ∀ v, (example_implementation.function_of_time.func () 2).1 ≠ .returned v) :=
  ⟨⟨example_in_time_bounds,
      (func_returns_inside_terminates_outside example_function_of_time
        example_implementation () (1 / 2)).2.2.2.2.1 example_in_time_bounds⟩,
    ⟨example_out_of_time_bounds,
      (func_returns_inside_terminates_outside example_function_of_time
        example_implementation () 2).2.2.2.2.2 example_out_of_time_bounds⟩⟩

end FunctionOfTimeConsistency

/-! ### StlBoilerplate -/

section Stl

variable {α : Type}

theorem to_size_t_one : to_size_t 1 = 1 := by
  unfold to_size_t
  omega

theorem to_size_t_neg_one : to_size_t (-1) = 18446744073709551615 := by
  simp [to_size_t]

theorem to_size_t_to_ptrdiff_t (x : Nat) (hx : x < 18446744073709551616) :
    to_size_t (to_ptrdiff_t x) = x := by
  unfold to_size_t to_ptrdiff_t
  split <;> omega

theorem to_ptrdiff_t_of_lt (x : Nat) (hx : x < 9223372036854775808) :
    to_ptrdiff_t x = x := by
  unfold to_ptrdiff_t
  rw [if_pos (by omega)]
  omega

theorem pre_increment_mk (c : Option (RandomAccessSequence α)) (k : Nat)
    (hk : k + 1 < 18446744073709551616) :
    (const_iterator.mk c k).pre_increment = ⟨c, k + 1⟩ := by
  have h : (k + 1) % 18446744073709551616 = k + 1 := by omega
  simp only [const_iterator.pre_increment, const_iterator.plus_assign, to_size_t_one, h]

theorem pre_decrement_mk (c : Option (RandomAccessSequence α)) (k : Nat)
    (hk : k + 1 < 18446744073709551616) :
    (const_iterator.mk c (k + 1)).pre_decrement = ⟨c, k⟩ := by
  have h : (k + 1 + 18446744073709551615) % 18446744073709551616 = k := by omega
  simp only [const_iterator.pre_decrement, const_iterator.plus_assign, to_size_t_neg_one, h]

theorem eq_mk_same (s : RandomAccessSequence α) (i j : Nat) :
    (const_iterator.mk (some s) i).eq ⟨some s, j⟩ = decide (i = j) := by
  by_cases h : i = j <;> simp [const_iterator.eq, const_iterator.same_container, h]

theorem ne_mk_same (s : RandomAccessSequence α) (i j : Nat) :
    (const_iterator.mk (some s) i).ne ⟨some s, j⟩ = decide (i ≠ j) := by
  simp [const_iterator.ne, eq_mk_same]

theorem traverse_from (s : RandomAccessSequence α) (fuel k : Nat) (hk : k ≤ s.size) :
    traverse fuel ⟨some s, k⟩ s.end_ =
      if s.size - k < fuel then some ((List.range' k (s.size - k)).map s.subscript)
      else none := by
  have hsz := s.size_lt
  induction fuel generalizing k with
  | zero => simp [traverse]
  | succ fuel ih =>
    unfold traverse
    by_cases hks : k = s.size
    · subst hks
      simp [RandomAccessSequence.end_, ne_mk_same]
    · have hlt : k < s.size := by omega
      have hne : (const_iterator.mk (some s) k).ne s.end_ = true := by
        simp [RandomAccessSequence.end_, ne_mk_same, hks]
      rw [if_pos hne, pre_increment_mk _ _ (by omega), ih (k + 1) (by omega)]
      have hd : (const_iterator.mk (some s) k).deref = some (s.subscript k) := rfl
      rw [hd]
      by_cases hf : s.size - (k + 1) < fuel
      · rw [if_pos hf, if_pos (by omega)]
        have : s.size - k = (s.size - (k + 1)) + 1 := by omega
        rw [this, List.range'_succ]
        rfl
      · rw [if_neg hf, if_neg (by omega)]

theorem reverse_traverse_from (s : RandomAccessSequence α) (fuel k : Nat)
    (hk : k ≤ s.size) :
    reverse_traverse fuel ⟨⟨some s, k⟩⟩ s.rend =
      if k < fuel then some ((List.range k).map s.subscript).reverse else none := by
  have hsz := s.size_lt
  induction fuel generalizing k with
  | zero => simp [reverse_traverse]
  | succ fuel ih =>
    unfold reverse_traverse
    cases k with
    | zero =>
      simp [reverse_iterator.ne, RandomAccessSequence.rend, RandomAccessSequence.begin,
        ne_mk_same]
    | succ k =>
      have hne : (reverse_iterator.mk (const_iterator.mk (some s) (k + 1))).ne s.rend
          = true := by
        simp [reverse_iterator.ne, RandomAccessSequence.rend, RandomAccessSequence.begin,
          ne_mk_same]
      have hd : (reverse_iterator.mk (const_iterator.mk (some s) (k + 1))).deref
          = some (s.subscript k) := by
        simp only [reverse_iterator.deref, pre_decrement_mk _ _ (show k + 1 < _ by omega)]
        rfl
      have hi : (reverse_iterator.mk (const_iterator.mk (some s) (k + 1))).pre_increment
          = ⟨⟨some s, k⟩⟩ := by
        simp only [reverse_iterator.pre_increment,
          pre_decrement_mk _ _ (show k + 1 < _ by omega)]
      rw [if_pos hne, hd, hi, ih k (by omega)]
      by_cases hf : k < fuel
      · rw [if_pos hf, if_pos (by omega)]
        simp [List.range_succ]
      · rw [if_neg hf, if_neg (by omega)]

end Stl

section StlAlgorithms

variable {α : Type}

theorem std_equal_from [BEq α] (a b : RandomAccessSequence α) (fuel k : Nat)
    (hk : k ≤ a.size) (hf : a.size - k < fuel) :
    ∃ r, std_equal fuel ⟨some a, k⟩ a.end_ ⟨some b, k⟩ = some r ∧
      (r = true ↔ ∀ i, k ≤ i → i < a.size → (a.subscript i == b.subscript i) = true) := by
  have hsz := a.size_lt
  induction fuel generalizing k with
  | zero => omega
  | succ fuel ih =>
    unfold std_equal
    by_cases hks : k = a.size
    · subst hks
      refine ⟨true, by simp [RandomAccessSequence.end_, ne_mk_same], ?_⟩
      simp only [true_iff]
      intro i h1 h2
      omega
    · have hne : (const_iterator.mk (some a) k).ne a.end_ = true := by
        simp [RandomAccessSequence.end_, ne_mk_same, hks]
      have hd1 : (const_iterator.mk (some a) k).deref = some (a.subscript k) := rfl
      have hd2 : (const_iterator.mk (some b) k).deref = some (b.subscript k) := rfl
      rw [if_pos hne, hd1, hd2]
      simp only []
      by_cases hx : (a.subscript k == b.subscript k) = true
      · rw [if_neg (by simp [hx]), pre_increment_mk _ _ (by omega),
          pre_increment_mk _ _ (by omega)]
        obtain ⟨r, hr, hiff⟩ := ih (k + 1) (by omega) (by omega)
        refine ⟨r, hr, hiff.trans ⟨fun h i h1 h2 => ?_, fun h i h1 h2 => h i (by omega) h2⟩⟩
        by_cases hik : i = k
        · subst hik; exact hx
        · exact h i (by omega) h2
      · rw [if_pos (by simpa using hx)]
        refine ⟨false, rfl, ?_⟩
        simp only [Bool.false_eq_true, false_iff]
        intro h
        exact hx (h k (Nat.le_refl k) (by omega))

theorem std_lexicographical_compare_from [LT α] [DecidableRel (fun x y : α => x < y)]
    (a b : RandomAccessSequence α) (fuel k : Nat) (hka : k ≤ a.size) (hkb : k ≤ b.size)
    (hf : min a.size b.size - k < fuel) :
    ∃ r, std_lexicographical_compare fuel ⟨some a, k⟩ a.end_ ⟨some b, k⟩ b.end_ = some r ∧
      (r = true ↔
        (∃ i, k ≤ i ∧ i < a.size ∧ i < b.size ∧
          (∀ j, k ≤ j → j < i →
            ¬ a.subscript j < b.subscript j ∧ ¬ b.subscript j < a.subscript j) ∧
          a.subscript i < b.subscript i) ∨
        ((∀ j, k ≤ j → j < a.size →
            ¬ a.subscript j < b.subscript j ∧ ¬ b.subscript j < a.subscript j) ∧
          a.size < b.size)) := by
  have hsa := a.size_lt
  have hsb := b.size_lt
  induction fuel generalizing k with
  | zero => omega
  | succ fuel ih =>
    unfold std_lexicographical_compare
    by_cases hend : k = a.size ∨ k = b.size
    · have hcond : ((const_iterator.mk (some a) k).ne a.end_ &&
          (const_iterator.mk (some b) k).ne b.end_) = false := by
        rcases hend with h | h <;>
          simp [RandomAccessSequence.end_, ne_mk_same, h]
      rw [hcond]
      refine ⟨_, rfl, ?_⟩
      simp only [RandomAccessSequence.end_, eq_mk_same, ne_mk_same, Bool.and_eq_true,
        decide_eq_true_eq, Bool.false_eq_true, if_false]
      constructor
      · rintro ⟨h1, h2⟩
        right
        exact ⟨fun j hj1 hj2 => by omega, by omega⟩
      · rintro (⟨i, h1, h2, h3, _⟩ | ⟨_, h2⟩)
        · omega
        · omega
    · have hka' : k < a.size := by omega
      have hkb' : k < b.size := by omega
      have hcond : ((const_iterator.mk (some a) k).ne a.end_ &&
          (const_iterator.mk (some b) k).ne b.end_) = true := by
        simp [RandomAccessSequence.end_, ne_mk_same]
        omega
      have hd1 : (const_iterator.mk (some a) k).deref = some (a.subscript k) := rfl
      have hd2 : (const_iterator.mk (some b) k).deref = some (b.subscript k) := rfl
      rw [if_pos hcond, hd1, hd2]
      simp only []
      by_cases hab : a.subscript k < b.subscript k
      · rw [if_pos hab]
        refine ⟨true, rfl, ?_⟩
        simp only [true_iff]
        left
        exact ⟨k, Nat.le_refl k, hka', hkb', fun j h1 h2 => by omega, hab⟩
      · rw [if_neg hab]
        by_cases hba : b.subscript k < a.subscript k
        · rw [if_pos hba]
          refine ⟨false, rfl, ?_⟩
          simp only [Bool.false_eq_true, false_iff]
          rintro (⟨i, h1, h2, h3, h4, h5⟩ | ⟨h1, _⟩)
          · by_cases hik : i = k
            · subst hik; exact hab h5
            · exact (h4 k (Nat.le_refl k) (by omega)).2 hba
          · exact (h1 k (Nat.le_refl k) hka').2 hba
        · rw [if_neg hba, pre_increment_mk _ _ (by omega), pre_increment_mk _ _ (by omega)]
          obtain ⟨r, hr, hiff⟩ := ih (k + 1) (by omega) (by omega) (by omega)
          refine ⟨r, hr, hiff.trans ?_⟩
          constructor
          · rintro (⟨i, h1, h2, h3, h4, h5⟩ | ⟨h1, h2⟩)
            · left
              refine ⟨i, by omega, h2, h3, fun j hj1 hj2 => ?_, h5⟩
              by_cases hjk : j = k
              · subst hjk; exact ⟨hab, hba⟩
              · exact h4 j (by omega) hj2
            · right
              refine ⟨fun j hj1 hj2 => ?_, h2⟩
              by_cases hjk : j = k
              · subst hjk; exact ⟨hab, hba⟩
              · exact h1 j (by omega) hj2
          · rintro (⟨i, h1, h2, h3, h4, h5⟩ | ⟨h1, h2⟩)
            · left
              have hik : i ≠ k := by
                intro h; subst h; exact hab h5
              exact ⟨i, by omega, h2, h3, fun j hj1 hj2 => h4 j (by omega) hj2, h5⟩
            · right
              exact ⟨fun j hj1 hj2 => h1 j (by omega) hj2, h2⟩

end StlAlgorithms

section StlClaims

variable {α : Type}

theorem same_container_self (a b : const_iterator α) (h : a.container_ = b.container_) :
    const_iterator.same_container a b = true := by
  simp [const_iterator.same_container, h]

theorem minus_one_end (s : RandomAccessSequence α) :
    s.end_.minus 1 = ⟨some s, (s.size + 18446744073709551615) % 18446744073709551616⟩ := by
  simp only [const_iterator.minus, const_iterator.minus_assign, const_iterator.plus_assign,
    RandomAccessSequence.end_, to_size_t_neg_one]

/-- C13: `at(n)` (the const and the non-const overload have the same body) throws
`std::out_of_range` exactly when `n >= size()`; for `n < size()` it returns the
element `s[n]`; and its outcome does not depend on what `operator[]` gives at an
index `>= size()`, so `operator[]` is never used out of range. -/
theorem at_throws_iff_out_of_range (s : RandomAccessSequence α) (n : Nat) :
    ((∃ e, s.at_ n = .error e) ↔ s.size ≤ n) ∧
    (n < s.size → s.at_ n = .ok (s.subscript n)) ∧
    (∀ s2 : RandomAccessSequence α, s2.size = s.size →
      (∀ i, i < s.size → s2.subscript i = s.subscript i) → s2.at_ n = s.at_ n) := by
  refine ⟨?_, ?_, ?_⟩
  · unfold RandomAccessSequence.at_
    by_cases h : n ≥ s.size
    · simp [h]
    · simp only [if_neg h]
      constructor
      · rintro ⟨e, he⟩
        cases he
      · intro h2
        exact absurd h2 h
  · intro h
    unfold RandomAccessSequence.at_
    rw [if_neg (by omega)]
  · intro s2 hsize hagree
    unfold RandomAccessSequence.at_
    rw [hsize]
    by_cases h : n ≥ s.size
    · rw [if_pos h, if_pos h]
    · rw [if_neg h, if_neg h, hagree n (by omega)]

/-- Witness for C13: `at(1)` on the sequence `10, 20, 30`, also when `operator[]` is
changed from index 3 on. -/
theorem at_throws_iff_out_of_range_witness :
    1 < example_sequence.size ∧
    example_sequence.at_ 1 = .ok (example_sequence.subscript 1) ∧
    (sequence_of_list 1 [10, 20, 30, 40] (by decide)).subscript 3
      ≠ example_sequence.subscript 3 ∧
    ({ sequence_of_list 1 [10, 20, 30, 40] (by decide) with
        size := 3, size_lt := by decide } : RandomAccessSequence Int).at_ 1
      = example_sequence.at_ 1 :=
  ⟨by decide, (at_throws_iff_out_of_range example_sequence 1).2.1 (by decide), by decide,
    (at_throws_iff_out_of_range example_sequence 1).2.2 _ rfl (by decide)⟩

/-- C14: the loop `for (it = s.begin(); it != s.end(); ++it)` over a sequence of size
`n` ends after exactly `n` steps (it needs `n + 1` evaluations of its condition,
no more and no fewer) and dereferences `s[0], ..., s[n-1]` in this order; the
same holds from `cbegin()` to `cend()`; and `*(s.begin() + k)` is `s[k]` for
every `k < n`. -/
theorem forward_iteration_in_order (s : RandomAccessSequence α) (fuel : Nat) :
    traverse fuel s.begin s.end_ =
      (if s.size < fuel then some ((List.range s.size).map s.subscript) else none) ∧
    traverse fuel s.cbegin s.cend =
      (if s.size < fuel then some ((List.range s.size).map s.subscript) else none) ∧
    (∀ k, k < s.size →
      (s.begin.plus (to_ptrdiff_t k)).deref = some (s.subscript k) ∧
      (s.cbegin.plus (to_ptrdiff_t k)).deref = some (s.subscript k)) := by
  have h := traverse_from s fuel 0 (Nat.zero_le _)
  simp only [Nat.sub_zero, ← List.range_eq_range'] at h
  refine ⟨h, h, fun k hk => ?_⟩
  have hsz := s.size_lt
  have hoff : (0 + to_size_t (to_ptrdiff_t k)) % 18446744073709551616 = k := by
    rw [to_size_t_to_ptrdiff_t k (by omega)]
    omega
  have hd : (s.begin.plus (to_ptrdiff_t k)).deref = some (s.subscript k) := by
    simp only [const_iterator.plus, const_iterator.plus_assign, RandomAccessSequence.begin,
      const_iterator.deref, hoff, Option.map_some']
  exact ⟨hd, hd⟩

/-- Witness for C14: the element at `begin() + 2` of the sequence `10, 20, 30`. -/
theorem forward_iteration_in_order_witness :
    2 < example_sequence.size ∧
    (example_sequence.begin.plus (to_ptrdiff_t 2)).deref
      = some (example_sequence.subscript 2) :=
  ⟨by decide, ((forward_iteration_in_order example_sequence 0).2.2 2 (by decide)).1⟩

/-- C15: `empty()` is true exactly when `size() == 0`; for a non-empty sequence
`front()` is `s[0]` and `back()` is `s[size() - 1]`, where `end() - 1` is the
iterator whose offset is `size() + (2^64 - 1)` reduced modulo `2^64`. -/
theorem empty_front_back (s : RandomAccessSequence α) :
    (s.empty = true ↔ s.size = 0) ∧
    s.end_.minus 1 = ⟨some s, (s.size + 18446744073709551615) % 18446744073709551616⟩ ∧
    (s.size ≠ 0 →
      s.front = some (s.subscript 0) ∧ s.back = some (s.subscript (s.size - 1))) := by
  have hsz := s.size_lt
  refine ⟨?_, minus_one_end s, fun hne => ⟨rfl, ?_⟩⟩
  · simp only [RandomAccessSequence.empty, RandomAccessSequence.begin,
      RandomAccessSequence.end_, eq_mk_same, decide_eq_true_eq]
    omega
  · have hoff : (s.size + 18446744073709551615) % 18446744073709551616 = s.size - 1 := by
      omega
    simp only [RandomAccessSequence.back, minus_one_end, hoff, const_iterator.deref,
      Option.map_some']

/-- Witness for C15: front and back of the sequence `10, 20, 30`. -/
theorem empty_front_back_witness :
    example_sequence.size ≠ 0 ∧
    example_sequence.front = some (example_sequence.subscript 0) ∧
    example_sequence.back = some (example_sequence.subscript (example_sequence.size - 1)) :=
  ⟨by decide, (empty_front_back example_sequence).2.2 (by decide)⟩

/-- C16: with enough fuel for the loop of `std::equal`, `a == b` returns, and it is
true exactly when `a.size() == b.size()` and `a[i] == b[i]` for every
`i < a.size()`; it is false when the sizes differ; it does not depend on what
`b[i]` gives for `i >= b.size()`; and `a != b` is its negation. -/
theorem sequence_equality_elementwise [BEq α] (a b : RandomAccessSequence α) (fuel : Nat)
    (hf : a.size < fuel) :
    ∃ r, a.eq fuel b = some r ∧
      (r = true ↔ a.size = b.size ∧
        ∀ i, i < a.size → (a.subscript i == b.subscript i) = true) ∧
      (a.size ≠ b.size → r = false) ∧
      a.ne fuel b = some (!r) ∧
      (∀ b2 : RandomAccessSequence α, b2.size = b.size →
        (∀ i, i < b.size → b2.subscript i = b.subscript i) → a.eq fuel b2 = some r) := by
  have key : ∀ c : RandomAccessSequence α, ∃ r, a.eq fuel c = some r ∧
      (r = true ↔ a.size = c.size ∧
        ∀ i, i < a.size → (a.subscript i == c.subscript i) = true) := by
    intro c
    unfold RandomAccessSequence.eq
    by_cases hs : a.size = c.size
    · obtain ⟨r, hr, hiff⟩ := std_equal_from a c fuel 0 (Nat.zero_le _) (by omega)
      refine ⟨r, ?_, ?_⟩
      · simp only [hs, beq_self_eq_true, if_true]
        exact hr
      · rw [hiff]
        exact ⟨fun h => ⟨hs, fun i hi => h i (Nat.zero_le _) hi⟩,
          fun h i _ hi => h.2 i hi⟩
    · refine ⟨false, ?_, ?_⟩
      · rw [if_neg (by simpa using hs)]
      · simp only [Bool.false_eq_true, false_iff]
        exact fun h => hs h.1
  obtain ⟨r, hr, hiff⟩ := key b
  refine ⟨r, hr, hiff, ?_, ?_, ?_⟩
  · intro hne
    cases r with
    | false => rfl
    | true => exact absurd (hiff.1 rfl).1 hne
  · simp [RandomAccessSequence.ne, hr]
  · intro b2 hsize hagree
    obtain ⟨r2, hr2, hiff2⟩ := key b2
    have : r2 = r := by
      have h12 : r2 = true ↔ r = true := by
        rw [hiff2, hiff, hsize]
        constructor
        · rintro ⟨h1, h2⟩
          exact ⟨h1, fun i hi => by rw [← hagree i (by omega)]; exact h2 i hi⟩
        · rintro ⟨h1, h2⟩
          exact ⟨h1, fun i hi => by rw [hagree i (by omega)]; exact h2 i hi⟩
      cases r <;> cases r2 <;> simp_all
    rw [hr2, this]

/-- Witness for C16: the sequence `10, 20, 30` compared with itself. -/
theorem sequence_equality_elementwise_witness :
    example_sequence.size < 4 ∧
    ∃ r, example_sequence.eq 4 example_sequence = some r ∧
      (r = true ↔ example_sequence.size = example_sequence.size ∧
        ∀ i, i < example_sequence.size →
          (example_sequence.subscript i == example_sequence.subscript i) = true) ∧
      (example_sequence.size ≠ example_sequence.size → r = false) ∧
      example_sequence.ne 4 example_sequence = some (!r) ∧
      (∀ b2 : RandomAccessSequence Int, b2.size = example_sequence.size →
        (∀ i, i < example_sequence.size → b2.subscript i = example_sequence.subscript i) →
        example_sequence.eq 4 b2 = some r) :=
  ⟨by decide, sequence_equality_elementwise example_sequence example_sequence 4 (by decide)⟩

end StlClaims

section StlOrder

variable {α : Type}

/-- C17: with enough fuel for the loop of `std::lexicographical_compare`, `a < b`
returns, and it is true exactly when either there is a first index
`i < min(a.size(), b.size())` at which the elements are not equivalent, with
`a[i] < b[i]`, or all elements of `a` are equivalent to those of `b` and
`a.size() < b.size()`; the empty sequence is less than every non-empty one;
`a > b` is `b < a`, `a <= b` is `not (b < a)` and `a >= b` is `not (a < b)`. -/
theorem sequence_order_is_lexicographic [LT α] [DecidableRel (fun x y : α => x < y)]
    (a b : RandomAccessSequence α) (fuel : Nat) (hf : min a.size b.size < fuel) :
    ∃ r r2, a.lt fuel b = some r ∧ b.lt fuel a = some r2 ∧
      (r = true ↔
        (∃ i, i < a.size ∧ i < b.size ∧
          (∀ j, j < i →
            ¬ a.subscript j < b.subscript j ∧ ¬ b.subscript j < a.subscript j) ∧
          a.subscript i < b.subscript i) ∨
        ((∀ j, j < a.size →
            ¬ a.subscript j < b.subscript j ∧ ¬ b.subscript j < a.subscript j) ∧
          a.size < b.size)) ∧
      (a.size = 0 → 0 < b.size → r = true) ∧
      a.gt fuel b = some r2 ∧ a.le fuel b = some (!r2) ∧ a.ge fuel b = some (!r) := by
  obtain ⟨r, hr, hiff⟩ := std_lexicographical_compare_from a b fuel 0 (Nat.zero_le _)
    (Nat.zero_le _) (by omega)
  obtain ⟨r2, hr2, _⟩ := std_lexicographical_compare_from b a fuel 0 (Nat.zero_le _)
    (Nat.zero_le _) (by rw [Nat.min_comm]; omega)
  have hiff0 : r = true ↔
      (∃ i, i < a.size ∧ i < b.size ∧
        (∀ j, j < i →
          ¬ a.subscript j < b.subscript j ∧ ¬ b.subscript j < a.subscript j) ∧
        a.subscript i < b.subscript i) ∨
      ((∀ j, j < a.size →
          ¬ a.subscript j < b.subscript j ∧ ¬ b.subscript j < a.subscript j) ∧
        a.size < b.size) := by
    rw [hiff]
    constructor
    · rintro (⟨i, _, h2, h3, h4, h5⟩ | ⟨h1, h2⟩)
      · exact Or.inl ⟨i, h2, h3, fun j hj => h4 j (Nat.zero_le _) hj, h5⟩
      · exact Or.inr ⟨fun j hj => h1 j (Nat.zero_le _) hj, h2⟩
    · rintro (⟨i, h2, h3, h4, h5⟩ | ⟨h1, h2⟩)
      · exact Or.inl ⟨i, Nat.zero_le _, h2, h3, fun j _ hj => h4 j hj, h5⟩
      · exact Or.inr ⟨fun j _ hj => h1 j hj, h2⟩
  have hlt : a.lt fuel b = some r := hr
  have hlt2 : b.lt fuel a = some r2 := hr2
  refine ⟨r, r2, hlt, hlt2, hiff0, ?_, ?_, ?_, ?_⟩
  · intro ha hb
    exact hiff0.2 (Or.inr ⟨fun j hj => by omega, by omega⟩)
  · exact hlt2
  · simp only [RandomAccessSequence.le, RandomAccessSequence.gt, hlt2, Option.map_some']
  · simp only [RandomAccessSequence.ge, hlt, Option.map_some']

/-- Witness for C17: `10, 20, 30` is less than `10, 20, 31, 40`. -/
theorem sequence_order_is_lexicographic_witness :
    min example_sequence.size example_sequence_b.size < 5 ∧
    ∃ r r2, example_sequence.lt 5 example_sequence_b = some r ∧
      example_sequence_b.lt 5 example_sequence = some r2 ∧
      (r = true ↔
        (∃ i, i < example_sequence.size ∧ i < example_sequence_b.size ∧
          (∀ j, j < i →
            ¬ example_sequence.subscript j < example_sequence_b.subscript j ∧
            ¬ example_sequence_b.subscript j < example_sequence.subscript j) ∧
          example_sequence.subscript i < example_sequence_b.subscript i) ∨
        ((∀ j, j < example_sequence.size →
            ¬ example_sequence.subscript j < example_sequence_b.subscript j ∧
            ¬ example_sequence_b.subscript j < example_sequence.subscript j) ∧
          example_sequence.size < example_sequence_b.size)) ∧
      (example_sequence.size = 0 → 0 < example_sequence_b.size → r = true) ∧
      example_sequence.gt 5 example_sequence_b = some r2 ∧
      example_sequence.le 5 example_sequence_b = some (!r2) ∧
      example_sequence.ge 5 example_sequence_b = some (!r) :=
  ⟨by decide,
    sequence_order_is_lexicographic example_sequence example_sequence_b 5 (by decide)⟩

/-- C18: for a sequence of size below `2^63`, `s.end() - s.begin()` is `s.size()`;
for an iterator `it` and a difference `n` such that the offset of `it` and the
offset of `it + n` are both below `2^63`, `(it + n) - it` is `n`; and `n + it`
is `it + n`. -/
theorem iterator_distance (s : RandomAccessSequence α) (it : const_iterator α) (n : Int) :
    (s.size < 9223372036854775808 → s.end_.difference s.begin = some (s.size : Int)) ∧
    (is_ptrdiff_t n → it.offset_ < 9223372036854775808 →
      (it.plus n).offset_ < 9223372036854775808 → (it.plus n).difference it = some n) ∧
    const_iterator.plus_left n it = it.plus n := by
  refine ⟨fun hs => ?_, fun hn hit hplus => ?_, rfl⟩
  · have h0 : to_ptrdiff_t 0 = 0 := to_ptrdiff_t_of_lt 0 (by omega)
    have hc : const_iterator.same_container s.end_ s.begin = true :=
      same_container_self _ _ rfl
    have hd : to_ptrdiff_t s.end_.offset_ - to_ptrdiff_t s.begin.offset_ = (s.size : Int) := by
      show to_ptrdiff_t s.size - to_ptrdiff_t 0 = (s.size : Int)
      rw [to_ptrdiff_t_of_lt s.size hs, h0, sub_zero]
    have hp : is_ptrdiff_t (s.size : Int) := ⟨by omega, by omega⟩
    simp only [const_iterator.difference, hc, if_true, hd, if_pos hp]
  · have hc : const_iterator.same_container (it.plus n) it = true :=
      same_container_self _ _ rfl
    have hoff : (it.plus n).offset_ = (it.offset_ + to_size_t n) % 18446744073709551616 :=
      rfl
    have hd : to_ptrdiff_t (it.plus n).offset_ - to_ptrdiff_t it.offset_ = n := by
      rw [to_ptrdiff_t_of_lt _ hplus, to_ptrdiff_t_of_lt _ hit]
      rw [hoff] at hplus ⊢
      unfold is_ptrdiff_t at hn
      unfold to_size_t at hplus ⊢
      omega
    simp only [const_iterator.difference, hc, if_true, hd]
    rw [if_pos hn]

/-- Witness for C18: the distance from `begin()` to `end()` of `10, 20, 30`, and from
`begin()` to `begin() + 2`. -/
theorem iterator_distance_witness :
    example_sequence.size < 9223372036854775808 ∧
    example_sequence.end_.difference example_sequence.begin
      = some (example_sequence.size : Int) ∧
    is_ptrdiff_t 2 ∧ example_sequence.begin.offset_ < 9223372036854775808 ∧
    (example_sequence.begin.plus 2).offset_ < 9223372036854775808 ∧
    (example_sequence.begin.plus 2).difference example_sequence.begin = some 2 :=
  ⟨by decide, (iterator_distance example_sequence example_sequence.begin 2).1 (by decide),
    by decide, by decide, by decide,
    (iterator_distance example_sequence example_sequence.begin 2).2.1 (by decide)
      (by decide) (by decide)⟩

/-- C19: for two iterators into the same sequence with offsets below `2^63`, `a < b`
is `offset(a) < offset(b)`, `a > b` is `b < a`, `a <= b` is `a < b or a == b`,
`a >= b` is `not (a < b)`, and exactly one of `a < b`, `a == b`, `a > b` holds. -/
theorem iterator_order_by_offset (a b : const_iterator α)
    (hc : a.container_ = b.container_)
    (ha : a.offset_ < 9223372036854775808) (hb : b.offset_ < 9223372036854775808) :
    a.lt b = some (decide (a.offset_ < b.offset_)) ∧
    a.gt b = b.lt a ∧
    a.gt b = some (decide (b.offset_ < a.offset_)) ∧
    a.le b = some (decide (a.offset_ < b.offset_) || a.eq b) ∧
    a.ge b = some (!decide (a.offset_ < b.offset_)) ∧
    a.eq b = decide (a.offset_ = b.offset_) ∧
    ((a.offset_ < b.offset_ ∧ a.eq b = false ∧ ¬ b.offset_ < a.offset_) ∨
      (¬ a.offset_ < b.offset_ ∧ a.eq b = true ∧ ¬ b.offset_ < a.offset_) ∨
      (¬ a.offset_ < b.offset_ ∧ a.eq b = false ∧ b.offset_ < a.offset_)) := by
  have hlt : ∀ x y : const_iterator α, x.container_ = y.container_ →
      x.offset_ < 9223372036854775808 → y.offset_ < 9223372036854775808 →
      x.lt y = some (decide (x.offset_ < y.offset_)) := by
    intro x y hxy hx hy
    have hsame : const_iterator.same_container y x = true := same_container_self _ _ hxy.symm
    have hp : is_ptrdiff_t ((y.offset_ : Int) - (x.offset_ : Int)) := by
      unfold is_ptrdiff_t
      omega
    simp only [const_iterator.lt, const_iterator.difference, hsame, if_true,
      to_ptrdiff_t_of_lt _ hx, to_ptrdiff_t_of_lt _ hy, if_pos hp, Option.map_some']
    congr 1
    by_cases h : x.offset_ < y.offset_
    · simp only [h, decide_True, decide_eq_true_eq]
      omega
    · simp only [h, decide_False, decide_eq_false_iff_not]
      omega
  have hab := hlt a b hc ha hb
  have hba := hlt b a hc.symm hb ha
  have heq : a.eq b = decide (a.offset_ = b.offset_) := by
    by_cases h : a.offset_ = b.offset_ <;>
      simp [const_iterator.eq, same_container_self a b hc, h]
  refine ⟨hab, rfl, hba, ?_, ?_, heq, ?_⟩
  · simp only [const_iterator.le, const_iterator.gt, hba, Option.map_some', heq]
    congr 1
    by_cases h1 : b.offset_ < a.offset_ <;> by_cases h2 : a.offset_ < b.offset_ <;>
      by_cases h3 : a.offset_ = b.offset_ <;> simp [h1, h2, h3] <;> omega
  · simp only [const_iterator.ge, hab, Option.map_some']
  · rw [heq]
    by_cases h1 : a.offset_ < b.offset_
    · left
      exact ⟨h1, by simp; omega, by omega⟩
    · by_cases h2 : a.offset_ = b.offset_
      · right; left
        exact ⟨h1, by simp [h2], by omega⟩
      · right; right
        exact ⟨h1, by simp [h2], by omega⟩

/-- Witness for C19: `begin()` and `end()` of the sequence `10, 20, 30`. -/
theorem iterator_order_by_offset_witness :
    example_sequence.begin.lt example_sequence.end_
      = some (decide (example_sequence.begin.offset_ < example_sequence.end_.offset_)) :=
  (iterator_order_by_offset example_sequence.begin example_sequence.end_ rfl
    (by decide) (by decide)).1

/-- C20: the traversal from `rbegin()` to `rend()` of a sequence of size `n` ends
after exactly `n` steps and visits `s[n-1], ..., s[0]` in this order, and so
does the traversal from `crbegin()` to `crend()`; it is the reverse of the
forward traversal; and for a non-empty sequence `*s.rbegin()` is `s.back()`. -/
theorem reverse_iteration_in_order (s : RandomAccessSequence α) (fuel : Nat) :
    reverse_traverse fuel s.rbegin s.rend =
      (if s.size < fuel then some ((List.range s.size).map s.subscript).reverse
        else none) ∧
    reverse_traverse fuel s.crbegin s.crend =
      (if s.size < fuel then some ((List.range s.size).map s.subscript).reverse
        else none) ∧
    reverse_traverse fuel s.rbegin s.rend
      = (traverse fuel s.begin s.end_).map List.reverse ∧
    (s.size ≠ 0 → s.rbegin.deref = s.back ∧
      s.rbegin.deref = some (s.subscript (s.size - 1))) := by
  have h := reverse_traverse_from s fuel s.size (Nat.le_refl _)
  have hf := traverse_from s fuel 0 (Nat.zero_le _)
  simp only [Nat.sub_zero, ← List.range_eq_range'] at hf
  have hrev : reverse_traverse fuel s.rbegin s.rend =
      (if s.size < fuel then some ((List.range s.size).map s.subscript).reverse
        else none) := h
  have hfwd : traverse fuel s.begin s.end_ =
      (if s.size < fuel then some ((List.range s.size).map s.subscript) else none) := hf
  refine ⟨hrev, hrev, ?_, fun hne => ?_⟩
  · rw [hrev, hfwd]
    by_cases hlt : s.size < fuel
    · simp [hlt]
    · simp [hlt]
  · have hsz := s.size_lt
    have hoff : (s.size + 18446744073709551615) % 18446744073709551616 = s.size - 1 := by
      omega
    have hd : s.rbegin.deref = some (s.subscript (s.size - 1)) := by
      simp only [RandomAccessSequence.rbegin, RandomAccessSequence.end_,
        reverse_iterator.deref, const_iterator.pre_decrement, const_iterator.plus_assign,
        to_size_t_neg_one, hoff, const_iterator.deref, Option.map_some']
    refine ⟨?_, hd⟩
    rw [hd]
    simp only [RandomAccessSequence.back, minus_one_end, hoff, const_iterator.deref,
      Option.map_some']

/-- Witness for C20: the first element of the reverse traversal of `10, 20, 30`. -/
theorem reverse_iteration_in_order_witness :
    example_sequence.size ≠ 0 ∧
    example_sequence.rbegin.deref = example_sequence.back ∧
    example_sequence.rbegin.deref
      = some (example_sequence.subscript (example_sequence.size - 1)) :=
  ⟨by decide, (reverse_iteration_in_order example_sequence 0).2.2.2 (by decide)⟩

end StlOrder

section StlRoundTrip

variable {α : Type}

theorem plus_assign_minus_assign (it : const_iterator α) (n : Int)
    (hoff : it.offset_ < 18446744073709551616) :
    (it.plus_assign n).minus_assign n = it := by
  cases it with
  | mk c off =>
    have h : ((off + to_size_t n) % 18446744073709551616 + to_size_t (-n))
        % 18446744073709551616 = off := by
      have hoff2 : off < 18446744073709551616 := hoff
      unfold to_size_t
      omega
    simp only [const_iterator.minus_assign, const_iterator.plus_assign, h]

theorem eq_self (it : const_iterator α) : it.eq it = true := by
  simp [const_iterator.eq, same_container_self it it rfl]

/-- C21: for an iterator (whose offset is a `size_t`) and a difference `n` other than
the minimum `ptrdiff_t` value, `-n` does not overflow and `it += n` followed by
`it -= n` gives back the original iterator, equal to it under `==`, whether or
not the offset wraps modulo `2^64` in between; `++` then `--` and `--` then `++`
are the identity; `(it + n) - n == it`; and `it++` and `it--` return the
iterator as it was before the step while stepping like `++it` and `--it`. -/
theorem advance_retreat_round_trip (it : const_iterator α) (n : Int)
    (hoff : it.offset_ < 18446744073709551616) (hn : is_ptrdiff_t n)
    (hmin : n ≠ -9223372036854775808) :
    is_ptrdiff_t (-n) ∧
    (it.plus_assign n).minus_assign n = it ∧
    ((it.plus_assign n).minus_assign n).eq it = true ∧
    it.pre_increment.pre_decrement = it ∧
    it.pre_decrement.pre_increment = it ∧
    (it.plus n).minus n = it ∧
    ((it.plus n).minus n).eq it = true ∧
    it.post_increment.1 = it ∧ it.post_increment.1.eq it = true ∧
    it.post_increment.2 = it.pre_increment ∧
    it.post_decrement.1 = it ∧ it.post_decrement.1.eq it = true ∧
    it.post_decrement.2 = it.pre_decrement := by
  have hround := plus_assign_minus_assign it n hoff
  have hinc : it.pre_increment.pre_decrement = it := plus_assign_minus_assign it 1 hoff
  have hdec : it.pre_decrement.pre_increment = it := by
    have h := plus_assign_minus_assign it (-1) hoff
    simpa only [const_iterator.minus_assign, neg_neg] using h
  have hneg : is_ptrdiff_t (-n) := by
    unfold is_ptrdiff_t at hn ⊢
    exact ⟨by omega, by omega⟩
  refine ⟨hneg, hround, ?_, hinc, hdec, hround, ?_, rfl, eq_self it, rfl, rfl, eq_self it,
    rfl⟩
  · rw [hround]
    exact eq_self it
  · show ((it.plus_assign n).minus_assign n).eq it = true
    rw [hround]
    exact eq_self it

/-- Witness for C21: from `begin()` of `10, 20, 30`, `n = -1` takes the offset to
`2^64 - 1` and `-= -1` brings it back to 0. -/
theorem advance_retreat_round_trip_witness :
    example_sequence.begin.offset_ < 18446744073709551616 ∧ is_ptrdiff_t (-1) ∧
    (-1 : Int) ≠ -9223372036854775808 ∧
    (example_sequence.begin.plus_assign (-1)).offset_ = 18446744073709551615 ∧
    (example_sequence.begin.plus_assign (-1)).minus_assign (-1) = example_sequence.begin ∧
    ((example_sequence.begin.plus_assign (-1)).minus_assign (-1)).eq example_sequence.begin
      = true :=
  ⟨by decide, by decide, by decide,
    by simp [const_iterator.plus_assign, RandomAccessSequence.begin, to_size_t_neg_one],
    (advance_retreat_round_trip example_sequence.begin (-1) (by decide) (by decide)
      (by decide)).2.1,
    (advance_retreat_round_trip example_sequence.begin (-1) (by decide) (by decide)
      (by decide)).2.2.1⟩

end StlRoundTrip

end Spectre
